import Mathlib

/-!
Progress-bar element (`Source/Ext/ElementProgressBar.cpp`).

A shallow embedding of the progress-bar widget.  The definitions are written
once for any carrier `F` of the C type `float` that has the constants,
arithmetic and ordered comparison the source uses.  Two carriers are used:
the exact rationals `ℚ`, for the arithmetic of finite values, and `CFloat`,
which adds the not-a-number value and the two infinities with the comparison
and arithmetic rules of C.  Rounding is outside both.  Calls into the host
toolkit (attribute store, style properties, box model, texture loading, quad
generation) are modelled at their interface.
-/

/-- A value of the C types `float` and `double`: not-a-number, one of the two
infinities, or a finite value, taken as an exact rational. -/
inductive CFloat where
  | nan : CFloat
  | neg_inf : CFloat
  | pos_inf : CFloat
  | fin : ℚ → CFloat
deriving DecidableEq

namespace CFloat

instance (n : ℕ) : OfNat CFloat n := ⟨fin n⟩

instance : IntCast CFloat := ⟨fun z => fin z⟩

/-- The comparison `a < b` of C: false as soon as one side is not-a-number. -/
def ltb : CFloat → CFloat → Bool
  | fin a, fin b => decide (a < b)
  | neg_inf, fin _ => true
  | neg_inf, pos_inf => true
  | fin _, pos_inf => true
  | _, _ => false

/-- The comparison `a <= b` of C: false as soon as one side is not-a-number. -/
def leb : CFloat → CFloat → Bool
  | fin a, fin b => decide (a ≤ b)
  | neg_inf, neg_inf => true
  | neg_inf, fin _ => true
  | neg_inf, pos_inf => true
  | fin _, pos_inf => true
  | pos_inf, pos_inf => true
  | _, _ => false

instance : LT CFloat := ⟨fun a b => ltb a b = true⟩

instance : LE CFloat := ⟨fun a b => leb a b = true⟩

instance : DecidableRel (fun a b : CFloat => a < b) :=
  fun a b => inferInstanceAs (Decidable (ltb a b = true))

instance : DecidableRel (fun a b : CFloat => a ≤ b) :=
  fun a b => inferInstanceAs (Decidable (leb a b = true))

/-- The sum of C: not-a-number propagates and opposite infinities cancel to
not-a-number. -/
def add : CFloat → CFloat → CFloat
  | nan, _ => nan
  | _, nan => nan
  | pos_inf, neg_inf => nan
  | neg_inf, pos_inf => nan
  | pos_inf, _ => pos_inf
  | _, pos_inf => pos_inf
  | neg_inf, _ => neg_inf
  | _, neg_inf => neg_inf
  | fin a, fin b => fin (a + b)

/-- The negation of C. -/
def neg : CFloat → CFloat
  | nan => nan
  | neg_inf => pos_inf
  | pos_inf => neg_inf
  | fin a => fin (-a)

/-- The infinity with the sign of the rational `a`, not-a-number for zero:
the product of positive infinity and the finite value `a`. -/
def inf_times (a : ℚ) : CFloat :=
  if 0 < a then pos_inf else if a < 0 then neg_inf else nan

/-- The product of C: not-a-number propagates and zero times an infinity is
not-a-number. -/
def mul : CFloat → CFloat → CFloat
  | nan, _ => nan
  | _, nan => nan
  | fin a, fin b => fin (a * b)
  | pos_inf, pos_inf => pos_inf
  | neg_inf, neg_inf => pos_inf
  | pos_inf, neg_inf => neg_inf
  | neg_inf, pos_inf => neg_inf
  | pos_inf, fin a => inf_times a
  | fin a, pos_inf => inf_times a
  | neg_inf, fin a => inf_times (-a)
  | fin a, neg_inf => inf_times (-a)

instance : Add CFloat := ⟨add⟩

instance : Neg CFloat := ⟨neg⟩

instance : Sub CFloat := ⟨fun a b => add a (neg b)⟩

instance : Mul CFloat := ⟨mul⟩

/-- The larger of two floats as the C function `fmaxf` returns it: a
not-a-number argument is ignored. -/
def fmax (a b : CFloat) : CFloat :=
  if a = nan then b
  else if b = nan then a
  else if a < b then b else a

/-- The smaller of two floats as the C function `fminf` returns it: a
not-a-number argument is ignored. -/
def fmin (a b : CFloat) : CFloat :=
  if a = nan then b
  else if b = nan then a
  else if b < a then b else a

end CFloat

namespace Rocket

/-- Float vector `Core::Vector2f`. -/
structure Vector2f (F : Type) where
  x : F
  y : F
deriving DecidableEq

/-- Integer vector `Core::Vector2i`. -/
structure Vector2i where
  x : ℤ
  y : ℤ
deriving DecidableEq

/-- Byte colour `Core::Colourb`. -/
structure Colourb where
  red : ℕ
  green : ℕ
  blue : ℕ
  alpha : ℕ
deriving DecidableEq

/-- Render vertex `Core::Vertex`. -/
structure Vertex (F : Type) where
  position : Vector2f F
  colour : Colourb
  tex_coord : Vector2f F
deriving DecidableEq

instance {F : Type} [OfNat F 0] : Inhabited (Vertex F) := ⟨⟨⟨0, 0⟩, ⟨0, 0, 0, 0⟩, ⟨0, 0⟩⟩⟩

/-- Decoded pixel data of a loaded texture, reduced to what the widget reads:
its pixel dimensions. -/
structure TextureResource where
  dimensions : Vector2i
deriving DecidableEq

/-- Texture slot `Core::Texture`: a handle that is empty until a load succeeds. -/
structure Texture where
  resource : Option TextureResource
deriving DecidableEq

/-- Geometry batch `Core::Geometry`: vertex and index buffers plus an optional
bound texture.  The binding is a pointer to one of the widget's own texture
slots (`&texture[i]`), recorded here as the slot index, or `none` for `NULL`. -/
structure Geometry (F : Type) where
  vertices : List (Vertex F)
  indices : List ℤ
  texture : Option ℕ
deriving DecidableEq

/-- The services of the host toolkit used by texture loading: the texture
database lookup behind `Texture::Load` and the path component of a URL. -/
structure Toolkit where
  Fetch : String → String → Option TextureResource
  GetPath : String → String

/-- Host element base class `Core::Element`, reduced to the state the widget
reads or writes through it. -/
structure Element (F : Type) where
  tag : String
  attributes : String → Option F
  properties : String → String
  content_size : Vector2f F
  absolute_offset : Vector2f F
  owner_document : Option String

/-- The widget `ElementProgressBar : Core::Element` with its own members. -/
structure ElementProgressBar (F : Type) extends Element F where
  texture : ℕ → Texture
  left_geometry : Geometry F
  center_geometry : Geometry F
  right_geometry : Geometry F
  geometry_dirty : Bool
  value : F

/-- An externally visible call made by the render path. -/
inductive Call (F : Type) where
  | GenerateGeometry : Call F
  | Render : Geometry F → Vector2f F → Call F
deriving DecidableEq

/-! ## Host toolkit interface -/

/-- Modelled from the spec: `Element::GetAttribute<float>(name, default)` is
missing from the sources; it reads the named attribute from the backing store
and returns the default when the attribute is unset. -/
def Element.GetAttribute {F : Type} (e : Element F) (name : String) (default_value : F) : F :=
  match e.attributes name with
  | some v => v
  | none => default_value

/-- Modelled from the spec: `Element::SetAttribute(name, value)` is missing from
the sources; it writes the value unmodified into the backing store.  Delivery
of the change notification is a separate step of the host. -/
def Element.SetAttribute {F : Type} (e : Element F) (name : String) (v : F) : Element F :=
  { e with attributes := fun n => if n = name then some v else e.attributes n }

/-- Modelled from the spec: `Element::GetProperty<String>(name)` is missing from
the sources; it reads the named style property. -/
def Element.GetProperty {F : Type} (e : Element F) (name : String) : String :=
  e.properties name

/-- Modelled from the spec: the base handler `Element::OnAttributeChange` is
missing from the sources; it is an external collaborator that leaves the
state observed by the widget as it is. -/
def Element.OnAttributeChange {F : Type} (e : Element F)
    (_changed_attributes : Finset String) : Element F :=
  e

/-- Modelled from the spec: the base handler `Element::OnPropertyChange` is
missing from the sources; it is an external collaborator that leaves the
state observed by the widget as it is. -/
def Element.OnPropertyChange {F : Type} (e : Element F)
    (_changed_properties : Finset String) : Element F :=
  e

/-- Modelled from the spec: `Texture::GetDimensions` is missing from the
sources; it reports the pixel dimensions of the slot, zero when absent. -/
def Texture.GetDimensions (t : Texture) : Vector2i :=
  match t.resource with
  | some r => r.dimensions
  | none => ⟨0, 0⟩

/-- Modelled from the spec: `Texture::Load(source, source_path)` is missing from
the sources; it asks the toolkit for the texture, keeps what it got (nothing
on failure) and reports whether the load succeeded. -/
def Texture.Load (tk : Toolkit) (_t : Texture) (source source_path : String) : Bool × Texture :=
  match tk.Fetch source source_path with
  | some r => (true, ⟨some r⟩)
  | none => (false, ⟨none⟩)

/-- Modelled from the spec: `Geometry::Release(true)` is missing from the
sources; it clears the vertex and index buffers and keeps the texture binding. -/
def Geometry.Release {F : Type} (g : Geometry F) : Geometry F :=
  { g with vertices := [], indices := [] }

/-- Modelled from the spec: `Geometry::SetTexture` is missing from the sources;
it replaces the texture binding of the batch. -/
def Geometry.SetTexture {F : Type} (g : Geometry F) (t : Option ℕ) : Geometry F :=
  { g with texture := t }

/-- The call `std::vector::resize(n)`: truncate, or pad with default elements. -/
def resize {α : Type} [Inhabited α] (xs : List α) (n : ℕ) : List α :=
  xs.take n ++ List.replicate (n - xs.length) default

/-- Modelled from the spec: `GeometryUtilities::GenerateQuad` is missing from
the sources; it writes a quad of four vertices (corners of the rectangle at
`origin` of size `dimensions`, one colour, texture coordinates spanning the
given corners) and six indices (two triangles) into the buffers. -/
def GenerateQuad {F : Type} [Add F] (vertices : List (Vertex F)) (indices : List ℤ)
    (origin dimensions : Vector2f F) (colour : Colourb)
    (top_left_texcoord bottom_right_texcoord : Vector2f F) : List (Vertex F) × List ℤ :=
  let v0 : Vertex F := ⟨origin, colour, top_left_texcoord⟩
  let v1 : Vertex F := ⟨⟨origin.x + dimensions.x, origin.y⟩, colour,
    ⟨bottom_right_texcoord.x, top_left_texcoord.y⟩⟩
  let v2 : Vertex F := ⟨⟨origin.x + dimensions.x, origin.y + dimensions.y⟩, colour,
    bottom_right_texcoord⟩
  let v3 : Vertex F := ⟨⟨origin.x, origin.y + dimensions.y⟩, colour,
    ⟨top_left_texcoord.x, bottom_right_texcoord.y⟩⟩
  ((((vertices.set 0 v0).set 1 v1).set 2 v2).set 3 v3,
   (((((indices.set 0 0).set 1 3).set 2 1).set 3 1).set 4 3).set 5 2)

namespace ElementProgressBar

section
variable {F : Type} [OfNat F 0] [OfNat F 1] [Add F] [Sub F] [Mul F] [LT F]
  [DecidableRel (fun a b : F => a < b)] [IntCast F]

/-! ## The widget -/

/-- Constructor `ElementProgressBar::ElementProgressBar(tag)`: the three batches
are empty and unbound, the geometry is dirty, the cached value is zero.  The
host element it is built on is passed in. -/
def new (e : Element F) : ElementProgressBar F :=
  { toElement := e
    texture := fun _ => ⟨none⟩
    left_geometry := ⟨[], [], none⟩
    center_geometry := ⟨[], [], none⟩
    right_geometry := ⟨[], [], none⟩
    geometry_dirty := true
    value := 0 }

/-- The method `ElementProgressBar::GetValue`. -/
def GetValue (s : ElementProgressBar F) : F :=
  s.toElement.GetAttribute "value" 0

/-- The method `ElementProgressBar::SetValue`. -/
def SetValue (s : ElementProgressBar F) (value : F) : ElementProgressBar F :=
  { s with toElement := s.toElement.SetAttribute "value" value }

/-- The method `ElementProgressBar::OnAttributeChange`. -/
def OnAttributeChange (s : ElementProgressBar F) (changed_attributes : Finset String) :
    ElementProgressBar F :=
  let s : ElementProgressBar F :=
    { s with toElement := s.toElement.OnAttributeChange changed_attributes }
  if "value" ∈ changed_attributes then
    let value := s.toElement.GetAttribute "value" 0
    let value := if value < 0 then 0 else if value > 1 then 1 else value
    { s with value := value, geometry_dirty := true }
  else
    s

/-- The local `source_url` of `LoadTexture` (lines 168-169): the source URL of
the owning document, empty when there is none. -/
def source_url (s : ElementProgressBar F) : String :=
  match s.owner_document with
  | none => ""
  | some url => url

/-- The method `ElementProgressBar::LoadTexture`. -/
def LoadTexture (tk : Toolkit) (s : ElementProgressBar F) (index : ℤ) : ElementProgressBar F :=
  let source_url := source_url s
  if index = 0 then
    let source := s.toElement.GetProperty "progress-left-src"
    let r := Texture.Load tk (s.texture 0) source (tk.GetPath source_url)
    let s : ElementProgressBar F := { s with texture := Function.update s.texture 0 r.2 }
    if !r.1 then
      { s with left_geometry := s.left_geometry.SetTexture none }
    else
      { s with left_geometry := s.left_geometry.SetTexture (some 0) }
  else if index = 1 then
    let source := s.toElement.GetProperty "progress-center-src"
    let r := Texture.Load tk (s.texture 1) source (tk.GetPath source_url)
    let s : ElementProgressBar F := { s with texture := Function.update s.texture 1 r.2 }
    if !r.1 then
      { s with center_geometry := s.center_geometry.SetTexture none }
    else
      { s with center_geometry := s.center_geometry.SetTexture (some 1) }
  else if index = 2 then
    let source := s.toElement.GetProperty "progress-right-src"
    let r := Texture.Load tk (s.texture 2) source (tk.GetPath source_url)
    let s : ElementProgressBar F := { s with texture := Function.update s.texture 2 r.2 }
    if !r.1 then
      { s with right_geometry := s.right_geometry.SetTexture none }
    else
      { s with right_geometry := s.right_geometry.SetTexture (some 2) }
  else
    s

/-- The method `ElementProgressBar::OnPropertyChange`. -/
def OnPropertyChange (tk : Toolkit) (s : ElementProgressBar F)
    (changed_properties : Finset String) : ElementProgressBar F :=
  let s : ElementProgressBar F :=
    { s with toElement := s.toElement.OnPropertyChange changed_properties }
  let s := if "progress-left-src" ∈ changed_properties then LoadTexture tk s 0 else s
  let s := if "progress-center-src" ∈ changed_properties then LoadTexture tk s 1 else s
  let s := if "progress-right-src" ∈ changed_properties then LoadTexture tk s 2 else s
  s

/-- The local `progress_size` of `GenerateGeometry` (line 99): the width of the
center part. -/
def progress_size (s : ElementProgressBar F) : F :=
  let complete_extent := s.content_size
  let initial_part_size_0 := (s.texture 0).GetDimensions
  let initial_part_size_2 := (s.texture 2).GetDimensions
  s.value * (complete_extent.x - (initial_part_size_0.x : F) - (initial_part_size_2.x : F))

/-- The array `final_part_size` of `GenerateGeometry` (lines 105-108). -/
def final_part_size (s : ElementProgressBar F) (i : ℕ) : Vector2f F :=
  let complete_extent := s.content_size
  let initial_part_size_0 := (s.texture 0).GetDimensions
  let initial_part_size_2 := (s.texture 2).GetDimensions
  if i = 0 then ⟨(initial_part_size_0.x : F), complete_extent.y⟩
  else if i = 2 then ⟨(initial_part_size_2.x : F), complete_extent.y⟩
  else ⟨progress_size s, complete_extent.y⟩

/-- The method `ElementProgressBar::GenerateGeometry`. -/
def GenerateGeometry (s : ElementProgressBar F) : ElementProgressBar F :=
  let texcoords_0 : Vector2f F := ⟨0, 0⟩
  let texcoords_1 : Vector2f F := ⟨1, 1⟩
  let size := final_part_size s
  let left := s.left_geometry.Release
  let center := s.center_geometry.Release
  let right := s.right_geometry.Release
  -- left part
  let q := GenerateQuad (resize left.vertices 4) (resize left.indices 6) ⟨0, 0⟩ (size 0)
    ⟨255, 255, 255, 255⟩ texcoords_0 texcoords_1
  let left := { left with vertices := q.1, indices := q.2 }
  -- center part
  let center :=
    if (size 1).x > 0 then
      let q := GenerateQuad (resize center.vertices 4) (resize center.indices 6)
        ⟨(size 0).x, 0⟩ (size 1) ⟨255, 255, 255, 255⟩ texcoords_0 texcoords_1
      { center with vertices := q.1, indices := q.2 }
    else
      center
  -- right part
  let q := GenerateQuad (resize right.vertices 4) (resize right.indices 6)
    ⟨(size 0).x + (size 1).x, 0⟩ (size 2) ⟨255, 255, 255, 255⟩ texcoords_0 texcoords_1
  let right := { right with vertices := q.1, indices := q.2 }
  { s with left_geometry := left, center_geometry := center, right_geometry := right,
           geometry_dirty := false }

/-- The method `ElementProgressBar::OnRender`: the new state and the calls made,
in order. -/
def OnRender (s : ElementProgressBar F) : ElementProgressBar F × List (Call F) :=
  let r : ElementProgressBar F × List (Call F) :=
    if s.geometry_dirty then (GenerateGeometry s, [Call.GenerateGeometry]) else (s, [])
  (r.1, r.2 ++ [Call.Render r.1.left_geometry r.1.absolute_offset,
                Call.Render r.1.center_geometry r.1.absolute_offset,
                Call.Render r.1.right_geometry r.1.absolute_offset])

/-- The method `ElementProgressBar::OnUpdate`. -/
def OnUpdate (s : ElementProgressBar F) : ElementProgressBar F :=
  s

/-! ## Slots and runs -/

/-- The geometry batch of slot `i` (left = 0, center = 1, right = 2). -/
def slot_geometry (s : ElementProgressBar F) (i : Fin 3) : Geometry F :=
  match i with
  | 0 => s.left_geometry
  | 1 => s.center_geometry
  | 2 => s.right_geometry

/-- The style property naming the texture source of slot `i`, as read by
`LoadTexture` (lines 175, 189, 203). -/
def slot_property (i : Fin 3) : String :=
  match i with
  | 0 => "progress-left-src"
  | 1 => "progress-center-src"
  | 2 => "progress-right-src"

/-- The three geometry batches of the widget. -/
def batches (s : ElementProgressBar F) : Geometry F × Geometry F × Geometry F :=
  (s.left_geometry, s.center_geometry, s.right_geometry)

/-- Modelled from the spec: the box-model layout of the host is missing from
the sources; a resize replaces the content-box size and calls nothing in the
widget. -/
def Resize (s : ElementProgressBar F) (size : Vector2f F) : ElementProgressBar F :=
  { s with content_size := size }

end

/-- One event delivered to the widget by its host or its user. -/
inductive Op (F : Type) where
  | SetValue : F → Op F
  | OnAttributeChange : Finset String → Op F
  | OnPropertyChange : Toolkit → Finset String → Op F
  | Resize : Vector2f F → Op F
  | OnRender : Op F

/-- The inputs of a regeneration other than the value: the texture slots and
the content-box size. -/
structure Snapshot (F : Type) where
  texture : ℕ → Texture
  content_size : Vector2f F

section
variable {F : Type} [OfNat F 0] [OfNat F 1] [Add F] [Sub F] [Mul F] [LT F]
  [DecidableRel (fun a b : F => a < b)] [IntCast F]

/-- The state after one event. -/
def step (s : ElementProgressBar F) (op : Op F) : ElementProgressBar F :=
  match op with
  | Op.SetValue v => SetValue s v
  | Op.OnAttributeChange changed => OnAttributeChange s changed
  | Op.OnPropertyChange tk changed => OnPropertyChange tk s changed
  | Op.Resize size => Resize s size
  | Op.OnRender => (OnRender s).1

/-- The state after a sequence of events. -/
def run (s : ElementProgressBar F) (ops : List (Op F)) : ElementProgressBar F :=
  ops.foldl step s

/-- The widget with its texture slots and content-box size replaced by those
of a snapshot. -/
def withSnapshot (s : ElementProgressBar F) (snap : Snapshot F) : ElementProgressBar F :=
  { s with texture := snap.texture, content_size := snap.content_size }

/-- One event, also recording the texture slots and content-box size read by
the most recent regeneration. -/
def track (p : ElementProgressBar F × Snapshot F) (op : Op F) :
    ElementProgressBar F × Snapshot F :=
  (step p.1 op,
   match op with
   | Op.OnRender => if p.1.geometry_dirty then ⟨p.1.texture, p.1.content_size⟩ else p.2
   | _ => p.2)

/-- A sequence of events, also recording the texture slots and content-box
size read by the most recent regeneration. -/
def runTracked (s : ElementProgressBar F) (snap : Snapshot F) (ops : List (Op F)) :
    ElementProgressBar F × Snapshot F :=
  ops.foldl track (s, snap)

/-- The corner positions of the rectangle at `origin` of size `size`, in the
order top-left, top-right, bottom-right, bottom-left. -/
def corners (origin size : Vector2f F) : List (Vector2f F) :=
  [origin, ⟨origin.x + size.x, origin.y⟩, ⟨origin.x + size.x, origin.y + size.y⟩,
   ⟨origin.x, origin.y + size.y⟩]

end

/-! ## Sample data -/

/-- A host element with a 200x20 content box, sources configured for the two
caps and no attributes. -/
def sampleElement : Element ℚ :=
  { tag := "progressbar"
    attributes := fun _ => none
    properties := fun n =>
      if n = "progress-left-src" then "left.png"
      else if n = "progress-right-src" then "right.png" else ""
    content_size := ⟨200, 20⟩
    absolute_offset := ⟨0, 0⟩
    owner_document := none }

/-- A toolkit whose texture database knows 10x20 textures for every non-empty
source name. -/
def sampleToolkit : Toolkit :=
  { Fetch := fun source _ => if source = "" then none else some ⟨⟨10, 20⟩⟩
    GetPath := fun url => url }

/-- A widget with both caps loaded (width 10) and the value set to one half. -/
def sampleBar : ElementProgressBar ℚ :=
  OnAttributeChange
    (SetValue
      (OnPropertyChange sampleToolkit (new sampleElement)
        {"progress-left-src", "progress-right-src"})
      (1 / 2))
    {"value"}

/-- The events that build `sampleBar` from a fresh widget, followed by one
render. -/
def sampleOps : List (Op ℚ) :=
  [Op.OnPropertyChange sampleToolkit {"progress-left-src", "progress-right-src"},
   Op.SetValue (1 / 2), Op.OnAttributeChange {"value"}, Op.OnRender]

/-- A snapshot with no textures and an empty content box. -/
def sampleSnapshot : Snapshot ℚ :=
  { texture := fun _ => ⟨none⟩, content_size := ⟨0, 0⟩ }

/-- The sample widget after its content box shrank to 15x20, narrower than
its two 10-pixel caps together. -/
def narrowBar : ElementProgressBar ℚ :=
  Resize sampleBar ⟨15, 20⟩

/-- A toolkit whose texture database knows no texture: every load fails. -/
def failingToolkit : Toolkit :=
  { Fetch := fun _ _ => none
    GetPath := fun url => url }

/-- The sample host element over the carrier with not-a-number. -/
def sampleElementC : Element CFloat :=
  { tag := "progressbar"
    attributes := fun _ => none
    properties := fun n =>
      if n = "progress-left-src" then "left.png"
      else if n = "progress-right-src" then "right.png" else ""
    content_size := ⟨200, 20⟩
    absolute_offset := ⟨0, 0⟩
    owner_document := none }

/-- The events that set the value to not-a-number and deliver the change
notification. -/
def nanOps : List (Op CFloat) :=
  [Op.SetValue CFloat.nan, Op.OnAttributeChange {"value"}]

/-- A sequence of events without not-a-number: an infinite value and its
notification, a texture load, an out-of-range value and its notification, a
resize and a render. -/
def rangeOps : List (Op CFloat) :=
  [Op.SetValue CFloat.neg_inf, Op.OnAttributeChange {"value"},
   Op.OnPropertyChange sampleToolkit {"progress-left-src"},
   Op.SetValue (CFloat.fin (17 / 10)), Op.OnAttributeChange {"value"},
   Op.Resize ⟨100, 10⟩, Op.OnRender]

/-- A fresh widget after `SetValue(NAN)` and the change notification. -/
def nanBar : ElementProgressBar CFloat :=
  run (new sampleElementC) nanOps

end ElementProgressBar

end Rocket

/-!
Numeric and colour helpers (`Source/Ext/Helpers.cpp`).

The clamp functions are modelled at `ℤ`, `ℕ` and `CFloat`, so that a
not-a-number argument is an input of `clampf` and `clampd`.  The colour
conversions are modelled in exact arithmetic: their doubles are exact
rationals, and the one non-finite value the code produces and tests for,
`NAN`, is `none` in the hue of an `hsv`.
-/

namespace Helpers

/-- The template `clamp` (lines 15-23), for any type with the comparison `<`. -/
def clamp {t : Type} [LT t] [DecidableRel (fun a b : t => a < b)] (v min max : t) : t :=
  if v > max then max
  else if v < min then min
  else v

/-- The template `lerp` (lines 25-28) at type double. -/
def lerp (a b k : ℚ) : ℚ :=
  a + (b - a) * k

/-- The template `lerp` on a double that may be `NAN`: the sum is `NAN` as
soon as one end is. -/
def lerp_nan (a b : Option ℚ) (k : ℚ) : Option ℚ :=
  match a, b with
  | some x, some y => some (lerp x y k)
  | _, _ => none

/-- The function `clampi` (lines 30-33). -/
def clampi (v min max : ℤ) : ℤ :=
  clamp v min max

/-- The function `clampui` (lines 35-38). -/
def clampui (v min max : ℕ) : ℕ :=
  clamp v min max

/-- The function `clampf` (lines 40-43). -/
def clampf (v min max : CFloat) : CFloat :=
  clamp v min max

/-- The function `clampd` (lines 45-48). -/
def clampd (v min max : CFloat) : CFloat :=
  clamp v min max

/-- Modelled from the spec: the struct `rgb` is declared in `Helpers.h`, which
is missing from the sources; it has the three components `r`, `g`, `b` the
code reads and writes. -/
structure rgb where
  r : ℚ
  g : ℚ
  b : ℚ
deriving DecidableEq

/-- The struct `hsv` (lines 50-54); the hue is `none` when it is `NAN`. -/
structure hsv where
  h : Option ℚ
  s : ℚ
  v : ℚ
deriving DecidableEq

/-- The conversion `(long)hh`: truncation toward zero. -/
def truncate (x : ℚ) : ℤ :=
  if 0 ≤ x then ⌊x⌋ else ⌈x⌉

/-- The function `rgb2hsv` (lines 59-94).  When `delta` is zero the three
components are equal and the quotient on line 81 is 0/0, that is `NAN`. -/
def rgb2hsv (c : rgb) : hsv :=
  let min := if c.r < c.g then c.r else c.g
  let min := if min < c.b then min else c.b
  let max := if c.r > c.g then c.r else c.g
  let max := if max > c.b then max else c.b
  let delta := max - min
  if max > 0 then
    let s := delta / max
    if delta = 0 then
      ⟨none, s, max⟩
    else
      let h :=
        if c.r ≥ max then (c.g - c.b) / delta
        else if c.g ≥ max then 2 + (c.b - c.r) / delta
        else 4 + (c.r - c.g) / delta
      let h := h * 60
      let h := if h < 0 then h + 360 else h
      ⟨some h, s, max⟩
  else
    ⟨none, 0, max⟩

/-- The function `hsv2rgb` (lines 97-160).  With a positive saturation and a
`NAN` hue the conversion `(long)hh` is undefined and every computed component
is `NAN`: the result is `none`. -/
def hsv2rgb (c : hsv) : Option rgb :=
  if c.s ≤ 0 then
    match c.h with
    | none => some ⟨c.v, c.v, c.v⟩
    | some _ => some ⟨0, 0, 0⟩
  else
    match c.h with
    | none => none
    | some h =>
      let hh := if h ≥ 360 then 0 else h
      let hh := hh / 60
      let i := truncate hh
      let ff := hh - (i : ℚ)
      let p := c.v * (1 - c.s)
      let q := c.v * (1 - c.s * ff)
      let t := c.v * (1 - c.s * (1 - ff))
      if i = 0 then some ⟨c.v, t, p⟩
      else if i = 1 then some ⟨q, c.v, p⟩
      else if i = 2 then some ⟨p, c.v, t⟩
      else if i = 3 then some ⟨p, q, c.v⟩
      else if i = 4 then some ⟨t, p, c.v⟩
      else some ⟨c.v, p, q⟩

/-- The function `rgb_interp` (lines 163-168). -/
def rgb_interp (a b : rgb) (k : ℚ) : Option rgb :=
  let ha := rgb2hsv a
  let hb := rgb2hsv b
  let hr : hsv := ⟨lerp_nan ha.h hb.h k, lerp ha.s hb.s k, lerp ha.v hb.v k⟩
  hsv2rgb hr

/-- The function `rgb_lerp` (lines 170-173). -/
def rgb_lerp (a b : rgb) (k : ℚ) : rgb :=
  ⟨lerp a.r b.r k, lerp a.g b.g k, lerp a.b b.b k⟩

end Helpers

/-! ## Comparisons of `CFloat` -/

namespace CFloat

/-- The constant 0 is the finite value 0. -/
theorem zero_eq : (0 : CFloat) = fin 0 := congrArg fin Nat.cast_zero

/-- The constant 1 is the finite value 1. -/
theorem one_eq : (1 : CFloat) = fin 1 := congrArg fin Nat.cast_one

/-- The comparison `<` is the boolean test `ltb`. -/
theorem lt_def (a b : CFloat) : a < b ↔ ltb a b = true := Iff.rfl

/-- The comparison `≤` is the boolean test `leb`. -/
theorem le_def (a b : CFloat) : a ≤ b ↔ leb a b = true := Iff.rfl

/-- On finite values `<` is the order of the rationals. -/
theorem fin_lt_fin (a b : ℚ) : fin a < fin b ↔ a < b := by
  simp [lt_def, ltb]

/-- On finite values `≤` is the order of the rationals. -/
theorem fin_le_fin (a b : ℚ) : fin a ≤ fin b ↔ a ≤ b := by
  simp [le_def, leb]

/-- On finite values `fmax` is the maximum of the rationals. -/
theorem fmax_fin (a b : ℚ) : fmax (fin a) (fin b) = fin (max a b) := by
  by_cases h : a < b
  · simp [fmax, fin_lt_fin, h, max_eq_right h.le]
  · simp [fmax, fin_lt_fin, h, max_eq_left (not_lt.mp h)]

/-- On finite values `fmin` is the minimum of the rationals. -/
theorem fmin_fin (a b : ℚ) : fmin (fin a) (fin b) = fin (min a b) := by
  by_cases h : b < a
  · simp [fmin, fin_lt_fin, h, min_eq_right h.le]
  · simp [fmin, fin_lt_fin, h, min_eq_left (not_lt.mp h)]

/-- Not-a-number is below nothing and nothing is below it. -/
theorem nan_not_lt (a : CFloat) : ¬ (nan < a) ∧ ¬ (a < nan) := by
  cases a <;> simp [lt_def, ltb]

/-- Not-a-number is neither at most nor at least anything. -/
theorem nan_not_le (a : CFloat) : ¬ (nan ≤ a) ∧ ¬ (a ≤ nan) := by
  cases a <;> simp [le_def, leb]

/-- Both sides of a true `≤` are numbers. -/
theorem ne_nan_of_le (a b : CFloat) (h : a ≤ b) : a ≠ nan ∧ b ≠ nan := by
  constructor
  · intro ha; rw [ha] at h; exact (nan_not_le b).1 h
  · intro hb; rw [hb] at h; exact (nan_not_le a).2 h

/-- A number is at most itself. -/
theorem le_self (a : CFloat) (h : a ≠ nan) : a ≤ a := by
  cases a <;> simp_all [le_def, leb]

/-- On numbers, `a < b` failing means `b ≤ a`. -/
theorem not_lt_le (a b : CFloat) (ha : a ≠ nan) (hb : b ≠ nan) (h : ¬ a < b) : b ≤ a := by
  cases a <;> cases b <;> simp_all [lt_def, le_def, ltb, leb]

/-- A true `<` gives `≤`. -/
theorem lt_le (a b : CFloat) (h : a < b) : a ≤ b := by
  cases a <;> cases b <;> simp_all [lt_def, le_def, ltb, leb]
  exact h.le

/-- A true `≤` excludes the opposite `<`. -/
theorem le_not_lt (a b : CFloat) (h : a ≤ b) : ¬ b < a := by
  cases a <;> cases b <;> simp_all [lt_def, le_def, ltb, leb]

/-- The comparison `≤` is transitive. -/
theorem le_transitive (a b c : CFloat) (hab : a ≤ b) (hbc : b ≤ c) : a ≤ c := by
  cases a <;> cases b <;> cases c <;> simp_all [le_def, leb]
  exact hab.trans hbc

end CFloat


namespace Rocket

namespace ElementProgressBar

/-! ## Value handling -/

/-- The clamping branch of `OnAttributeChange` computes `max 0 (min 1 v)`. -/
theorem clamp_eq_max_min (v : ℚ) :
    (if v < 0 then 0 else if v > 1 then 1 else v) = max 0 (min 1 v) := by
  by_cases h0 : v < 0
  · rw [if_pos h0, min_eq_right (by linarith), max_eq_left h0.le]
  · by_cases h1 : v > 1
    · rw [if_neg h0, if_pos h1, min_eq_left h1.le, max_eq_right (by norm_num)]
    · rw [if_neg h0, if_neg h1, min_eq_right (not_lt.mp h1), max_eq_right (not_lt.mp h0)]

/-- Reading back the attribute written by `SetValue`. -/
theorem GetAttribute_SetValue {F : Type} [OfNat F 0]
    (s : ElementProgressBar F) (v : F) :
    (SetValue s v).toElement.GetAttribute "value" 0 = v := by
  simp [SetValue, Element.GetAttribute, Element.SetAttribute]

/-- The two comparisons of `OnAttributeChange` (lines 54-57) on a number
compute `fmax 0 (fmin 1 v)`, a value within [0,1]. -/
theorem clamp_CFloat (v : CFloat) (hv : v ≠ CFloat.nan) :
    (if v < 0 then 0 else if v > 1 then 1 else v) = CFloat.fmax 0 (CFloat.fmin 1 v) ∧
      (0 : CFloat) ≤ (if v < 0 then 0 else if v > 1 then 1 else v) ∧
      (if v < 0 then 0 else if v > 1 then 1 else v) ≤ (1 : CFloat) := by
  cases v with
  | nan => exact absurd rfl hv
  | neg_inf =>
    simp [CFloat.zero_eq, CFloat.one_eq, CFloat.lt_def, CFloat.le_def, CFloat.ltb, CFloat.leb,
      CFloat.fmax, CFloat.fmin]
  | pos_inf =>
    simp [CFloat.zero_eq, CFloat.one_eq, CFloat.lt_def, CFloat.le_def, CFloat.ltb, CFloat.leb,
      CFloat.fmax, CFloat.fmin]
  | fin q =>
    have e : (if CFloat.fin q < 0 then (0 : CFloat) else if CFloat.fin q > 1 then 1
        else CFloat.fin q) = CFloat.fin (max 0 (min 1 q)) := by
      rw [CFloat.zero_eq, CFloat.one_eq]
      simp only [CFloat.fin_lt_fin, gt_iff_lt]
      rw [← clamp_eq_max_min]
      split_ifs <;> rfl
    rw [e]
    refine ⟨?_, ?_, ?_⟩
    · rw [CFloat.zero_eq, CFloat.one_eq, CFloat.fmin_fin, CFloat.fmax_fin]
    · rw [CFloat.zero_eq, CFloat.fin_le_fin]
      exact le_max_left _ _
    · rw [CFloat.one_eq, CFloat.fin_le_fin]
      exact max_le zero_le_one (min_le_left _ _)

/-- The two comparisons of `OnAttributeChange` (lines 54-57) are both false
on not-a-number, which is kept. -/
theorem clamp_CFloat_nan :
    (if CFloat.nan < 0 then 0 else if CFloat.nan > 1 then 1 else CFloat.nan) = CFloat.nan := by
  simp [CFloat.zero_eq, CFloat.one_eq, CFloat.lt_def, CFloat.ltb]

/-- The state after `OnAttributeChange` when "value" is among the changed
attributes, for any carrier. -/
theorem OnAttributeChange_mem_eq {F : Type} [OfNat F 0] [OfNat F 1] [LT F]
    [DecidableRel (fun a b : F => a < b)] (s : ElementProgressBar F) (changed : Finset String)
    (h : "value" ∈ changed) :
    OnAttributeChange s changed =
      { s with
        value := if s.toElement.GetAttribute "value" 0 < 0 then 0
          else if s.toElement.GetAttribute "value" 0 > 1 then 1
          else s.toElement.GetAttribute "value" 0
        geometry_dirty := true } := by
  simp only [OnAttributeChange, Element.OnAttributeChange, if_pos h]

/-- The widget `nanBar` is a fresh widget with the attribute set to
not-a-number and the notification delivered. -/
theorem nanBar_eq :
    nanBar = OnAttributeChange (SetValue (new sampleElementC) CFloat.nan) {"value"} := rfl

/-- The cached value of `nanBar` is not-a-number. -/
theorem nanBar_value : nanBar.value = CFloat.nan := by
  rw [nanBar_eq, OnAttributeChange_mem_eq _ _ (by simp)]
  simp only [GetAttribute_SetValue]
  exact clamp_CFloat_nan

/-- C1 (counterexample): after `SetValue(NAN)` and the "value" change
notification the cached value is not-a-number; it is not
`max(0, min(1, NAN))`, which is 1, and it is not between 0 and 1. -/
theorem value_nan_not_clamped :
    (OnAttributeChange (SetValue (new sampleElementC) CFloat.nan) {"value"}).value
        = CFloat.nan ∧
      (OnAttributeChange (SetValue (new sampleElementC) CFloat.nan) {"value"}).value
        ≠ CFloat.fmax 0 (CFloat.fmin 1 CFloat.nan) ∧
      ¬ ((0 : CFloat) ≤
            (OnAttributeChange (SetValue (new sampleElementC) CFloat.nan) {"value"}).value ∧
          (OnAttributeChange (SetValue (new sampleElementC) CFloat.nan) {"value"}).value
            ≤ (1 : CFloat)) := by
  have hv := nanBar_value
  rw [nanBar_eq] at hv
  rw [hv]
  refine ⟨rfl, ?_, ?_⟩
  · simp [CFloat.fmax, CFloat.fmin, CFloat.zero_eq, CFloat.one_eq, CFloat.lt_def, CFloat.ltb]
  · intro h
    exact (CFloat.nan_not_le 1).1 h.2

/-- C1 (amended): for every value `v` other than not-a-number, after
`SetValue v` followed by `OnAttributeChange` with a changed-set containing
"value", the cached clamped value of the widget equals `max(0, min(1, v))`. -/
theorem value_after_SetValue_OnAttributeChange (s : ElementProgressBar CFloat) (v : CFloat)
    (changed : Finset String) (h : "value" ∈ changed) (hv : v ≠ CFloat.nan) :
    (OnAttributeChange (SetValue s v) changed).value = CFloat.fmax 0 (CFloat.fmin 1 v) := by
  rw [OnAttributeChange_mem_eq _ _ h]
  simp only [GetAttribute_SetValue]
  exact (clamp_CFloat v hv).1

/-- Witness for C1 (amended) at the out-of-range value 17/10 on a fresh
widget. -/
theorem value_after_SetValue_OnAttributeChange_witness :
    "value" ∈ ({"value"} : Finset String) ∧ CFloat.fin (17 / 10) ≠ CFloat.nan ∧
      (OnAttributeChange (SetValue (new sampleElementC) (CFloat.fin (17 / 10))) {"value"}).value
        = CFloat.fmax 0 (CFloat.fmin 1 (CFloat.fin (17 / 10))) :=
  ⟨by simp, by simp,
    value_after_SetValue_OnAttributeChange (new sampleElementC) (CFloat.fin (17 / 10)) {"value"}
      (by simp) (by simp)⟩

/-- C2 (failing input): after `SetValue (17/10)` and delivery of the "value"
change notification, `GetValue` still returns the raw attribute 17/10, which
is not between 0 and 1, while the cached copy is 1; on an unset attribute
`GetValue` returns 0. -/
theorem GetValue_after_notification_unclamped (s : ElementProgressBar ℚ) :
    GetValue (OnAttributeChange (SetValue s (17 / 10)) {"value"}) = 17 / 10 ∧
      ¬ (GetValue (OnAttributeChange (SetValue s (17 / 10)) {"value"}) ≤ 1) ∧
      (OnAttributeChange (SetValue s (17 / 10)) {"value"}).value = 1 ∧
      GetValue (new sampleElement) = 0 := by
  have hget : GetValue (OnAttributeChange (SetValue s (17 / 10)) {"value"}) = 17 / 10 := by
    simp [GetValue, OnAttributeChange, Element.OnAttributeChange, SetValue,
      Element.GetAttribute, Element.SetAttribute]
  refine ⟨hget, ?_, ?_, ?_⟩
  · rw [hget]; norm_num
  · have hread := GetAttribute_SetValue s (17 / 10)
    simp only [OnAttributeChange, Element.OnAttributeChange, Finset.mem_singleton, if_true,
      hread]
    norm_num
  · simp [GetValue, new, sampleElement, Element.GetAttribute]

/-- C3: `SetValue v` stores `v` unmodified under the attribute "value", so an
immediate `GetValue` returns exactly `v`, and it changes neither the cached
value nor the dirty flag nor any geometry batch. -/
theorem SetValue_stores_unmodified (s : ElementProgressBar ℚ) (v : ℚ) :
    (SetValue s v).attributes "value" = some v ∧
      GetValue (SetValue s v) = v ∧
      (SetValue s v).value = s.value ∧
      (SetValue s v).geometry_dirty = s.geometry_dirty ∧
      (SetValue s v).left_geometry = s.left_geometry ∧
      (SetValue s v).center_geometry = s.center_geometry ∧
      (SetValue s v).right_geometry = s.right_geometry := by
  refine ⟨?_, GetAttribute_SetValue s v, rfl, rfl, rfl, rfl, rfl⟩
  simp [SetValue, Element.SetAttribute]

end ElementProgressBar

end Rocket

namespace Rocket

namespace ElementProgressBar

/-! ## Geometry regeneration -/

/-- The left batch after regeneration. -/
theorem GenerateGeometry_left {F : Type} [OfNat F 0] [OfNat F 1] [Add F] [Sub F] [Mul F] [LT F]
    [DecidableRel (fun a b : F => a < b)] [IntCast F]
    (s : ElementProgressBar F) :
    (GenerateGeometry s).left_geometry =
      { vertices :=
          [⟨⟨0, 0⟩, ⟨255, 255, 255, 255⟩, ⟨0, 0⟩⟩,
           ⟨⟨0 + (final_part_size s 0).x, 0⟩, ⟨255, 255, 255, 255⟩, ⟨1, 0⟩⟩,
           ⟨⟨0 + (final_part_size s 0).x, 0 + (final_part_size s 0).y⟩,
             ⟨255, 255, 255, 255⟩, ⟨1, 1⟩⟩,
           ⟨⟨0, 0 + (final_part_size s 0).y⟩, ⟨255, 255, 255, 255⟩, ⟨0, 1⟩⟩]
        indices := [0, 3, 1, 1, 3, 2]
        texture := s.left_geometry.texture } := rfl

/-- The right batch after regeneration. -/
theorem GenerateGeometry_right {F : Type} [OfNat F 0] [OfNat F 1] [Add F] [Sub F] [Mul F] [LT F]
    [DecidableRel (fun a b : F => a < b)] [IntCast F]
    (s : ElementProgressBar F) :
    (GenerateGeometry s).right_geometry =
      { vertices :=
          [⟨⟨(final_part_size s 0).x + (final_part_size s 1).x, 0⟩,
             ⟨255, 255, 255, 255⟩, ⟨0, 0⟩⟩,
           ⟨⟨(final_part_size s 0).x + (final_part_size s 1).x + (final_part_size s 2).x, 0⟩,
             ⟨255, 255, 255, 255⟩, ⟨1, 0⟩⟩,
           ⟨⟨(final_part_size s 0).x + (final_part_size s 1).x + (final_part_size s 2).x,
              0 + (final_part_size s 2).y⟩, ⟨255, 255, 255, 255⟩, ⟨1, 1⟩⟩,
           ⟨⟨(final_part_size s 0).x + (final_part_size s 1).x, 0 + (final_part_size s 2).y⟩,
             ⟨255, 255, 255, 255⟩, ⟨0, 1⟩⟩]
        indices := [0, 3, 1, 1, 3, 2]
        texture := s.right_geometry.texture } := rfl

/-- The center batch after regeneration, when the center width is positive. -/
theorem GenerateGeometry_center_pos {F : Type} [OfNat F 0] [OfNat F 1] [Add F] [Sub F] [Mul F] [LT F]
    [DecidableRel (fun a b : F => a < b)] [IntCast F]
    (s : ElementProgressBar F) (h : 0 < (final_part_size s 1).x) :
    (GenerateGeometry s).center_geometry =
      { vertices :=
          [⟨⟨(final_part_size s 0).x, 0⟩, ⟨255, 255, 255, 255⟩, ⟨0, 0⟩⟩,
           ⟨⟨(final_part_size s 0).x + (final_part_size s 1).x, 0⟩,
             ⟨255, 255, 255, 255⟩, ⟨1, 0⟩⟩,
           ⟨⟨(final_part_size s 0).x + (final_part_size s 1).x, 0 + (final_part_size s 1).y⟩,
             ⟨255, 255, 255, 255⟩, ⟨1, 1⟩⟩,
           ⟨⟨(final_part_size s 0).x, 0 + (final_part_size s 1).y⟩,
             ⟨255, 255, 255, 255⟩, ⟨0, 1⟩⟩]
        indices := [0, 3, 1, 1, 3, 2]
        texture := s.center_geometry.texture } := by
  simp only [GenerateGeometry, gt_iff_lt, if_pos h]
  rfl

/-- The center batch after regeneration, when the center width is not positive. -/
theorem GenerateGeometry_center_nonpos {F : Type} [OfNat F 0] [OfNat F 1] [Add F] [Sub F] [Mul F] [LT F]
    [DecidableRel (fun a b : F => a < b)] [IntCast F]
    (s : ElementProgressBar F)
    (h : ¬ 0 < (final_part_size s 1).x) :
    (GenerateGeometry s).center_geometry =
      { vertices := [], indices := [], texture := s.center_geometry.texture } := by
  simp only [GenerateGeometry, gt_iff_lt, if_neg h]
  rfl

/-- The x size of the center part is `progress_size`. -/
theorem final_part_size_center_x {F : Type} [OfNat F 0] [OfNat F 1] [Add F] [Sub F] [Mul F] [LT F]
    [DecidableRel (fun a b : F => a < b)] [IntCast F]
    (s : ElementProgressBar F) :
    (final_part_size s 1).x = progress_size s := rfl

/-- C4: when the caps fit into the content box, the center width computed by
regeneration (the x size of the center part) equals
`value * (contentWidth - leftWidth - rightWidth)`, and a generated center quad
spans exactly that width. -/
theorem center_width_eq (s : ElementProgressBar ℚ)
    (_hfit : (((s.texture 0).GetDimensions.x : ℤ) : ℚ) + (((s.texture 2).GetDimensions.x : ℤ) : ℚ)
      ≤ s.content_size.x) :
    (final_part_size s 1).x =
        s.value * (s.content_size.x - (((s.texture 0).GetDimensions.x : ℤ) : ℚ)
          - (((s.texture 2).GetDimensions.x : ℤ) : ℚ)) ∧
      (0 < (final_part_size s 1).x →
        (GenerateGeometry s).center_geometry.vertices.map (fun v => v.position.x) =
          [(((s.texture 0).GetDimensions.x : ℤ) : ℚ),
           (((s.texture 0).GetDimensions.x : ℤ) : ℚ) +
             s.value * (s.content_size.x - (((s.texture 0).GetDimensions.x : ℤ) : ℚ)
               - (((s.texture 2).GetDimensions.x : ℤ) : ℚ)),
           (((s.texture 0).GetDimensions.x : ℤ) : ℚ) +
             s.value * (s.content_size.x - (((s.texture 0).GetDimensions.x : ℤ) : ℚ)
               - (((s.texture 2).GetDimensions.x : ℤ) : ℚ)),
           (((s.texture 0).GetDimensions.x : ℤ) : ℚ)]) := by
  refine ⟨rfl, fun hpos => ?_⟩
  rw [GenerateGeometry_center_pos s hpos]
  rfl

/-- The sample widget has caps of width 10 in a content box of width 200. -/
theorem sampleBar_dims :
    (sampleBar.texture 0).GetDimensions.x = 10 ∧ (sampleBar.texture 2).GetDimensions.x = 10 ∧
      sampleBar.content_size.x = 200 ∧ sampleBar.value = 1 / 2 := by
  simp [sampleBar, OnAttributeChange, SetValue, Element.GetAttribute, Element.SetAttribute,
    Element.OnAttributeChange, OnPropertyChange, LoadTexture, Element.OnPropertyChange, new,
    sampleElement, sampleToolkit, Texture.Load, Texture.GetDimensions, Element.GetProperty,
    source_url, Function.update]
  norm_num

/-- Witness for C4: content box 200 wide, caps 10 and 10, value one half. -/
theorem center_width_eq_witness :
    ((((sampleBar.texture 0).GetDimensions.x : ℤ) : ℚ) +
        (((sampleBar.texture 2).GetDimensions.x : ℤ) : ℚ) ≤ sampleBar.content_size.x) ∧
    ((final_part_size sampleBar 1).x =
        sampleBar.value * (sampleBar.content_size.x
          - (((sampleBar.texture 0).GetDimensions.x : ℤ) : ℚ)
          - (((sampleBar.texture 2).GetDimensions.x : ℤ) : ℚ)) ∧
      (0 < (final_part_size sampleBar 1).x →
        (GenerateGeometry sampleBar).center_geometry.vertices.map (fun v => v.position.x) =
          [(((sampleBar.texture 0).GetDimensions.x : ℤ) : ℚ),
           (((sampleBar.texture 0).GetDimensions.x : ℤ) : ℚ) +
             sampleBar.value * (sampleBar.content_size.x
               - (((sampleBar.texture 0).GetDimensions.x : ℤ) : ℚ)
               - (((sampleBar.texture 2).GetDimensions.x : ℤ) : ℚ)),
           (((sampleBar.texture 0).GetDimensions.x : ℤ) : ℚ) +
             sampleBar.value * (sampleBar.content_size.x
               - (((sampleBar.texture 0).GetDimensions.x : ℤ) : ℚ)
               - (((sampleBar.texture 2).GetDimensions.x : ℤ) : ℚ)),
           (((sampleBar.texture 0).GetDimensions.x : ℤ) : ℚ)])) :=
  have hd := sampleBar_dims
  have hfit : (((sampleBar.texture 0).GetDimensions.x : ℤ) : ℚ) +
      (((sampleBar.texture 2).GetDimensions.x : ℤ) : ℚ) ≤ sampleBar.content_size.x := by
    rw [hd.1, hd.2.1, hd.2.2.1]; norm_num
  ⟨hfit, center_width_eq sampleBar hfit⟩

/-- C5 (amended): after every regeneration, for every input, the center batch
has zero vertices (and zero indices) exactly when the computed center width
is not greater than zero (it is at most zero or not-a-number), and has 4
vertices and 6 indices when the width is greater than zero; the left and right
batches always have 4 vertices and 6 indices. -/
theorem batch_sizes_after_GenerateGeometry {F : Type} [OfNat F 0] [OfNat F 1] [Add F] [Sub F]
    [Mul F] [LT F] [DecidableRel (fun a b : F => a < b)] [IntCast F]
    (s : ElementProgressBar F) :
    ((GenerateGeometry s).center_geometry.vertices.length = 0 ↔ ¬ 0 < progress_size s) ∧
      ((GenerateGeometry s).center_geometry.indices.length = 0 ↔ ¬ 0 < progress_size s) ∧
      (0 < progress_size s →
        (GenerateGeometry s).center_geometry.vertices.length = 4 ∧
        (GenerateGeometry s).center_geometry.indices.length = 6) ∧
      (GenerateGeometry s).left_geometry.vertices.length = 4 ∧
      (GenerateGeometry s).left_geometry.indices.length = 6 ∧
      (GenerateGeometry s).right_geometry.vertices.length = 4 ∧
      (GenerateGeometry s).right_geometry.indices.length = 6 := by
  rw [GenerateGeometry_left, GenerateGeometry_right]
  by_cases hpos : 0 < (final_part_size s 1).x
  · have hp : 0 < progress_size s := hpos
    rw [GenerateGeometry_center_pos s hpos]
    simp [hp]
  · have hp : ¬ 0 < progress_size s := hpos
    rw [GenerateGeometry_center_nonpos s hpos]
    simp [hp]

/-- The center width of `nanBar` is not-a-number. -/
theorem nanBar_progress_size : progress_size nanBar = CFloat.nan := by
  unfold progress_size
  rw [nanBar_value]
  rfl

/-- C5 (counterexample): with not-a-number cached (after `SetValue(NAN)` and
the notification) regeneration leaves the center batch without vertices and
indices although the computed center width, not-a-number, is not at most
zero. -/
theorem center_empty_with_nan_width :
    (GenerateGeometry nanBar).center_geometry.vertices.length = 0 ∧
      (GenerateGeometry nanBar).center_geometry.indices.length = 0 ∧
      ¬ (progress_size nanBar ≤ 0) := by
  have hw := nanBar_progress_size
  have hnot : ¬ 0 < (final_part_size nanBar 1).x := by
    rw [final_part_size_center_x, hw]
    exact (CFloat.nan_not_lt 0).2
  refine ⟨?_, ?_, ?_⟩
  · rw [GenerateGeometry_center_nonpos nanBar hnot]; rfl
  · rw [GenerateGeometry_center_nonpos nanBar hnot]; rfl
  · rw [hw]; exact (CFloat.nan_not_le 0).1

end ElementProgressBar

end Rocket

namespace Rocket

namespace ElementProgressBar

/-! ## Rendering -/

/-- After `OnRender` the dirty flag is clear. -/
theorem OnRender_dirty {F : Type} [OfNat F 0] [OfNat F 1] [Add F] [Sub F] [Mul F] [LT F]
    [DecidableRel (fun a b : F => a < b)] [IntCast F]
    (s : ElementProgressBar F) : (OnRender s).1.geometry_dirty = false := by
  unfold OnRender
  cases h : s.geometry_dirty
  · simp [h]
  · simp [GenerateGeometry]

/-- With a clear dirty flag `OnRender` leaves the state alone and only submits
the three batches. -/
theorem OnRender_clean {F : Type} [OfNat F 0] [OfNat F 1] [Add F] [Sub F] [Mul F] [LT F]
    [DecidableRel (fun a b : F => a < b)] [IntCast F]
    (s : ElementProgressBar F) (h : s.geometry_dirty = false) :
    OnRender s = (s, [Call.Render s.left_geometry s.absolute_offset,
      Call.Render s.center_geometry s.absolute_offset,
      Call.Render s.right_geometry s.absolute_offset]) := by
  simp [OnRender, h]

/-- C7: calling `OnRender` twice with no intervening state change regenerates
the geometry at most once, never on the second call (the first leaves the
dirty flag false), and the three batches after the second call, and those it
submits, are identical to those after the first. -/
theorem OnRender_twice (s : ElementProgressBar ℚ) :
    (OnRender s).1.geometry_dirty = false ∧
      Call.GenerateGeometry ∉ (OnRender (OnRender s).1).2 ∧
      ((OnRender s).2 ++ (OnRender (OnRender s).1).2).count Call.GenerateGeometry ≤ 1 ∧
      (OnRender (OnRender s).1).1 = (OnRender s).1 ∧
      batches (OnRender (OnRender s).1).1 = batches (OnRender s).1 ∧
      (OnRender (OnRender s).1).2 =
        [Call.Render (OnRender s).1.left_geometry (OnRender s).1.absolute_offset,
         Call.Render (OnRender s).1.center_geometry (OnRender s).1.absolute_offset,
         Call.Render (OnRender s).1.right_geometry (OnRender s).1.absolute_offset] := by
  have hd := OnRender_dirty s
  have h2 := OnRender_clean (OnRender s).1 hd
  refine ⟨hd, ?_, ?_, ?_, ?_, ?_⟩
  · rw [h2]; simp
  · rw [h2]
    unfold OnRender
    cases s.geometry_dirty <;> simp [List.count_cons]
  · rw [h2]
  · rw [h2]
  · rw [h2]

end ElementProgressBar

end Rocket

namespace Rocket

namespace ElementProgressBar

/-! ## Texture loading -/

/-- The effect of `LoadTexture(0)`. -/
theorem LoadTexture_zero {F : Type}
    (tk : Toolkit) (s : ElementProgressBar F) :
    LoadTexture tk s 0 =
      { s with
        texture := Function.update s.texture 0
          (Texture.Load tk (s.texture 0) (s.toElement.GetProperty "progress-left-src")
            (tk.GetPath (source_url s))).2
        left_geometry := s.left_geometry.SetTexture
          (if (Texture.Load tk (s.texture 0) (s.toElement.GetProperty "progress-left-src")
            (tk.GetPath (source_url s))).1 then some 0 else none) } := by
  simp only [LoadTexture, if_true]
  cases (Texture.Load tk (s.texture 0) (s.toElement.GetProperty "progress-left-src")
    (tk.GetPath (source_url s))).1 <;> rfl

/-- The effect of `LoadTexture(1)`. -/
theorem LoadTexture_one {F : Type}
    (tk : Toolkit) (s : ElementProgressBar F) :
    LoadTexture tk s 1 =
      { s with
        texture := Function.update s.texture 1
          (Texture.Load tk (s.texture 1) (s.toElement.GetProperty "progress-center-src")
            (tk.GetPath (source_url s))).2
        center_geometry := s.center_geometry.SetTexture
          (if (Texture.Load tk (s.texture 1) (s.toElement.GetProperty "progress-center-src")
            (tk.GetPath (source_url s))).1 then some 1 else none) } := by
  simp only [LoadTexture, one_ne_zero, if_false, if_true]
  cases (Texture.Load tk (s.texture 1) (s.toElement.GetProperty "progress-center-src")
    (tk.GetPath (source_url s))).1 <;> rfl

/-- The effect of `LoadTexture(2)`. -/
theorem LoadTexture_two {F : Type}
    (tk : Toolkit) (s : ElementProgressBar F) :
    LoadTexture tk s 2 =
      { s with
        texture := Function.update s.texture 2
          (Texture.Load tk (s.texture 2) (s.toElement.GetProperty "progress-right-src")
            (tk.GetPath (source_url s))).2
        right_geometry := s.right_geometry.SetTexture
          (if (Texture.Load tk (s.texture 2) (s.toElement.GetProperty "progress-right-src")
            (tk.GetPath (source_url s))).1 then some 2 else none) } := by
  have h20 : ¬ ((2 : ℤ) = 0) := by decide
  have h21 : ¬ ((2 : ℤ) = 1) := by decide
  simp only [LoadTexture, h20, h21, if_false, if_true]
  cases (Texture.Load tk (s.texture 2) (s.toElement.GetProperty "progress-right-src")
    (tk.GetPath (source_url s))).1 <;> rfl

/-- An index other than 0, 1, 2 is ignored by `LoadTexture`. -/
theorem LoadTexture_other {F : Type}
    (tk : Toolkit) (s : ElementProgressBar F) (index : ℤ)
    (h0 : index ≠ 0) (h1 : index ≠ 1) (h2 : index ≠ 2) : LoadTexture tk s index = s := by
  simp only [LoadTexture, h0, h1, h2, if_false]

/-- What `LoadTexture` never touches, for any index: the host element, the
dirty flag, the cached value and the vertex and index buffers. -/
theorem LoadTexture_frame {F : Type}
    (tk : Toolkit) (s : ElementProgressBar F) (index : ℤ) :
    (LoadTexture tk s index).toElement = s.toElement ∧
      (LoadTexture tk s index).geometry_dirty = s.geometry_dirty ∧
      (LoadTexture tk s index).value = s.value ∧
      (LoadTexture tk s index).left_geometry.vertices = s.left_geometry.vertices ∧
      (LoadTexture tk s index).left_geometry.indices = s.left_geometry.indices ∧
      (LoadTexture tk s index).center_geometry.vertices = s.center_geometry.vertices ∧
      (LoadTexture tk s index).center_geometry.indices = s.center_geometry.indices ∧
      (LoadTexture tk s index).right_geometry.vertices = s.right_geometry.vertices ∧
      (LoadTexture tk s index).right_geometry.indices = s.right_geometry.indices := by
  by_cases h0 : index = 0
  · subst h0; rw [LoadTexture_zero]; exact ⟨rfl, rfl, rfl, rfl, rfl, rfl, rfl, rfl, rfl⟩
  · by_cases h1 : index = 1
    · subst h1; rw [LoadTexture_one]; exact ⟨rfl, rfl, rfl, rfl, rfl, rfl, rfl, rfl, rfl⟩
    · by_cases h2 : index = 2
      · subst h2; rw [LoadTexture_two]; exact ⟨rfl, rfl, rfl, rfl, rfl, rfl, rfl, rfl, rfl⟩
      · rw [LoadTexture_other tk s index h0 h1 h2]
        exact ⟨rfl, rfl, rfl, rfl, rfl, rfl, rfl, rfl, rfl⟩

/-- The slot written by `LoadTexture(i)`: the texture slot holds what the load
returned and the batch is bound to the slot on success, to nothing on failure;
the other batches and slots are unchanged. -/
theorem LoadTexture_slot {F : Type}
    (tk : Toolkit) (s : ElementProgressBar F) (i : Fin 3) :
    (LoadTexture tk s ((i : ℕ) : ℤ)).texture =
        Function.update s.texture (i : ℕ)
          (Texture.Load tk (s.texture i) (s.toElement.GetProperty (slot_property i))
            (tk.GetPath (source_url s))).2 ∧
      slot_geometry (LoadTexture tk s ((i : ℕ) : ℤ)) i =
        (slot_geometry s i).SetTexture
          (if (Texture.Load tk (s.texture i) (s.toElement.GetProperty (slot_property i))
            (tk.GetPath (source_url s))).1 then some (i : ℕ) else none) ∧
      ∀ j : Fin 3, j ≠ i →
        slot_geometry (LoadTexture tk s ((i : ℕ) : ℤ)) j = slot_geometry s j := by
  fin_cases i
  · refine ⟨?_, ?_, ?_⟩
    · show (LoadTexture tk s 0).texture = _
      rw [LoadTexture_zero]; rfl
    · show slot_geometry (LoadTexture tk s 0) 0 = _
      rw [LoadTexture_zero]; rfl
    · intro j hj
      show slot_geometry (LoadTexture tk s 0) j = _
      rw [LoadTexture_zero]
      fin_cases j
      · exact absurd rfl hj
      · rfl
      · rfl
  · refine ⟨?_, ?_, ?_⟩
    · show (LoadTexture tk s 1).texture = _
      rw [LoadTexture_one]; rfl
    · show slot_geometry (LoadTexture tk s 1) 1 = _
      rw [LoadTexture_one]; rfl
    · intro j hj
      show slot_geometry (LoadTexture tk s 1) j = _
      rw [LoadTexture_one]
      fin_cases j
      · rfl
      · exact absurd rfl hj
      · rfl
  · refine ⟨?_, ?_, ?_⟩
    · show (LoadTexture tk s 2).texture = _
      rw [LoadTexture_two]; rfl
    · show slot_geometry (LoadTexture tk s 2) 2 = _
      rw [LoadTexture_two]; rfl
    · intro j hj
      show slot_geometry (LoadTexture tk s 2) j = _
      rw [LoadTexture_two]
      fin_cases j
      · rfl
      · rfl
      · exact absurd rfl hj

end ElementProgressBar

end Rocket

namespace Rocket

namespace ElementProgressBar

/-- C8: for every slot `i` and every widget state, a `LoadTexture(i)` whose
texture load fails leaves the batch of slot `i` bound to no texture and leaves
the other two batches (texture binding and geometry) unchanged; the call
returns normally, with no error value. -/
theorem LoadTexture_failure (tk : Toolkit) (s : ElementProgressBar ℚ) (i : Fin 3)
    (hfail : (Texture.Load tk (s.texture i) (s.toElement.GetProperty (slot_property i))
      (tk.GetPath (source_url s))).1 = false) :
    (slot_geometry (LoadTexture tk s ((i : ℕ) : ℤ)) i).texture = none ∧
      ∀ j : Fin 3, j ≠ i →
        slot_geometry (LoadTexture tk s ((i : ℕ) : ℤ)) j = slot_geometry s j := by
  obtain ⟨-, hbind, hothers⟩ := LoadTexture_slot tk s i
  refine ⟨?_, hothers⟩
  rw [hbind, hfail]
  rfl

/-- Witness for C8: the center source of the sample element is empty, so its
load fails. -/
theorem LoadTexture_failure_witness :
    (Texture.Load sampleToolkit ((new sampleElement).texture (1 : Fin 3))
        ((new sampleElement).toElement.GetProperty (slot_property 1))
        (sampleToolkit.GetPath (source_url (new sampleElement)))).1 = false ∧
      ((slot_geometry (LoadTexture sampleToolkit (new sampleElement)
          (((1 : Fin 3) : ℕ) : ℤ)) 1).texture = none ∧
        ∀ j : Fin 3, j ≠ 1 →
          slot_geometry (LoadTexture sampleToolkit (new sampleElement)
            (((1 : Fin 3) : ℕ) : ℤ)) j = slot_geometry (new sampleElement) j) :=
  have hfail : (Texture.Load sampleToolkit ((new sampleElement).texture (1 : Fin 3))
      ((new sampleElement).toElement.GetProperty (slot_property 1))
      (sampleToolkit.GetPath (source_url (new sampleElement)))).1 = false := by
    simp [Texture.Load, sampleToolkit, sampleElement, new, Element.GetProperty, slot_property]
  ⟨hfail, LoadTexture_failure sampleToolkit (new sampleElement) 1 hfail⟩

/-- The texture slot after `Texture::Load`: the fetched texture on success,
empty on failure. -/
theorem Texture_Load_eq (tk : Toolkit) (t : Texture) (source source_path : String) :
    (∀ r, tk.Fetch source source_path = some r →
        Texture.Load tk t source source_path = (true, ⟨some r⟩)) ∧
      (tk.Fetch source source_path = none →
        Texture.Load tk t source source_path = (false, ⟨none⟩)) := by
  constructor
  · intro r hr
    simp only [Texture.Load, hr]
  · intro hnone
    simp only [Texture.Load, hnone]

/-- C9 (counterexample): on the sample widget, whose left cap is loaded with
width 10, a `LoadTexture(0)` that fails does not only clear the binding of the
left batch: it also empties texture slot 0, whose width becomes 0. -/
theorem LoadTexture_failure_empties_slot :
    (Texture.Load failingToolkit (sampleBar.texture 0)
        (sampleBar.toElement.GetProperty "progress-left-src")
        (failingToolkit.GetPath (source_url sampleBar))).1 = false ∧
      (sampleBar.texture 0).GetDimensions.x = 10 ∧
      ((LoadTexture failingToolkit sampleBar 0).texture 0).GetDimensions.x = 0 ∧
      LoadTexture failingToolkit sampleBar 0 ≠
        { sampleBar with left_geometry := sampleBar.left_geometry.SetTexture none } := by
  have hfail : (Texture.Load failingToolkit (sampleBar.texture 0)
      (sampleBar.toElement.GetProperty "progress-left-src")
      (failingToolkit.GetPath (source_url sampleBar))).1 = false := by
    simp [Texture.Load, failingToolkit]
  have hnew : ((LoadTexture failingToolkit sampleBar 0).texture 0).GetDimensions.x = 0 := by
    rw [LoadTexture_zero]
    simp [Texture.Load, failingToolkit, Texture.GetDimensions]
  refine ⟨hfail, sampleBar_dims.1, hnew, ?_⟩
  intro heq
  have hx := congrArg (fun u : ElementProgressBar ℚ => (u.texture 0).GetDimensions.x) heq
  simp only [hnew] at hx
  have h10 : (sampleBar.texture 0).GetDimensions.x = 10 := sampleBar_dims.1
  have hx2 : (0 : ℤ) = (sampleBar.texture 0).GetDimensions.x := hx
  rw [h10] at hx2
  exact absurd hx2 (by decide)

/-- C9 (amended): for every slot `i` and every widget state, `LoadTexture(i)`
leaves the dirty flag, the cached value and the vertices and indices of all
three batches unchanged, whether the load succeeds or fails; on success it
stores the loaded texture in slot `i` and binds batch `i` to that slot, on
failure it empties slot `i` and clears the binding of batch `i`; the bindings
of the other batches, the other texture slots and the host element are
unchanged. -/
theorem LoadTexture_effect {F : Type} (tk : Toolkit) (s : ElementProgressBar F) (i : Fin 3) :
    (LoadTexture tk s ((i : ℕ) : ℤ)).geometry_dirty = s.geometry_dirty ∧
      (LoadTexture tk s ((i : ℕ) : ℤ)).value = s.value ∧
      (∀ j : Fin 3,
        (slot_geometry (LoadTexture tk s ((i : ℕ) : ℤ)) j).vertices
            = (slot_geometry s j).vertices ∧
          (slot_geometry (LoadTexture tk s ((i : ℕ) : ℤ)) j).indices
            = (slot_geometry s j).indices) ∧
      (∀ j : Fin 3, j ≠ i →
        (slot_geometry (LoadTexture tk s ((i : ℕ) : ℤ)) j).texture
          = (slot_geometry s j).texture) ∧
      (∀ r : TextureResource,
        tk.Fetch (s.toElement.GetProperty (slot_property i)) (tk.GetPath (source_url s))
          = some r →
        (LoadTexture tk s ((i : ℕ) : ℤ)).texture (i : ℕ) = ⟨some r⟩ ∧
          (slot_geometry (LoadTexture tk s ((i : ℕ) : ℤ)) i).texture = some (i : ℕ)) ∧
      (tk.Fetch (s.toElement.GetProperty (slot_property i)) (tk.GetPath (source_url s))
          = none →
        (LoadTexture tk s ((i : ℕ) : ℤ)).texture (i : ℕ) = ⟨none⟩ ∧
          (slot_geometry (LoadTexture tk s ((i : ℕ) : ℤ)) i).texture = none) ∧
      (∀ j : ℕ, j ≠ (i : ℕ) → (LoadTexture tk s ((i : ℕ) : ℤ)).texture j = s.texture j) ∧
      (LoadTexture tk s ((i : ℕ) : ℤ)).toElement = s.toElement := by
  obtain ⟨hel, hdirty, hval, hlv, hli, hcv, hci, hrv, hri⟩ :=
    LoadTexture_frame tk s ((i : ℕ) : ℤ)
  obtain ⟨htex, hbind, hothers⟩ := LoadTexture_slot tk s i
  obtain ⟨hok, hfail⟩ := Texture_Load_eq tk (s.texture i)
    (s.toElement.GetProperty (slot_property i)) (tk.GetPath (source_url s))
  refine ⟨hdirty, hval, ?_, ?_, ?_, ?_, ?_, hel⟩
  · intro j
    fin_cases j
    · exact ⟨hlv, hli⟩
    · exact ⟨hcv, hci⟩
    · exact ⟨hrv, hri⟩
  · intro j hj
    rw [hothers j hj]
  · intro r hr
    rw [htex, hbind, hok r hr, Function.update_same]
    exact ⟨rfl, rfl⟩
  · intro hnone
    rw [htex, hbind, hfail hnone, Function.update_same]
    exact ⟨rfl, rfl⟩
  · intro j hj
    rw [htex, Function.update_noteq hj]

/-- The state after `OnPropertyChange`, as a chain of the loads it issues. -/
theorem OnPropertyChange_eq {F : Type}
    (tk : Toolkit) (s : ElementProgressBar F) (changed : Finset String) :
    OnPropertyChange tk s changed =
      (fun s2 => if "progress-right-src" ∈ changed then LoadTexture tk s2 2 else s2)
        ((fun s1 => if "progress-center-src" ∈ changed then LoadTexture tk s1 1 else s1)
          (if "progress-left-src" ∈ changed then LoadTexture tk s 0 else s)) := rfl

/-- C10: `OnPropertyChange` reloads exactly the slots whose property name is
in the changed set (progress-left-src is slot 0, progress-center-src slot 1,
progress-right-src slot 2): such a slot ends as `LoadTexture` of that slot
leaves it, a slot whose name is absent keeps its texture and its batch, and a
set with none of the three names changes nothing in the widget. -/
theorem OnPropertyChange_slots (tk : Toolkit) (s : ElementProgressBar ℚ)
    (changed : Finset String) (i : Fin 3) :
    (slot_property i ∈ changed →
        (OnPropertyChange tk s changed).texture i = (LoadTexture tk s ((i : ℕ) : ℤ)).texture i ∧
          slot_geometry (OnPropertyChange tk s changed) i
            = slot_geometry (LoadTexture tk s ((i : ℕ) : ℤ)) i) ∧
      (slot_property i ∉ changed →
        (OnPropertyChange tk s changed).texture i = s.texture i ∧
          slot_geometry (OnPropertyChange tk s changed) i = slot_geometry s i) ∧
      ((∀ j : Fin 3, slot_property j ∉ changed) → OnPropertyChange tk s changed = s) := by
  have hp0 : slot_property 0 = "progress-left-src" := rfl
  have hp1 : slot_property 1 = "progress-center-src" := rfl
  have hp2 : slot_property 2 = "progress-right-src" := rfl
  refine ⟨?_, ?_, ?_⟩
  · intro hin
    rw [OnPropertyChange_eq]
    by_cases h0 : "progress-left-src" ∈ changed <;>
    by_cases h1 : "progress-center-src" ∈ changed <;>
    by_cases h2 : "progress-right-src" ∈ changed <;>
    fin_cases i <;>
    simp_all [LoadTexture_zero, LoadTexture_one, LoadTexture_two, slot_geometry, source_url,
      Element.GetProperty, Function.update]
  · intro hout
    rw [OnPropertyChange_eq]
    by_cases h0 : "progress-left-src" ∈ changed <;>
    by_cases h1 : "progress-center-src" ∈ changed <;>
    by_cases h2 : "progress-right-src" ∈ changed <;>
    fin_cases i <;>
    simp_all [LoadTexture_zero, LoadTexture_one, LoadTexture_two, slot_geometry, source_url,
      Element.GetProperty, Function.update]
  · intro hnone
    have h0 := hnone 0
    have h1 := hnone 1
    have h2 := hnone 2
    rw [hp0] at h0
    rw [hp1] at h1
    rw [hp2] at h2
    rw [OnPropertyChange_eq]
    simp only [h0, h1, h2, if_false]

end ElementProgressBar

end Rocket

namespace Rocket

namespace ElementProgressBar

/-! ## The dirty flag -/

/-- Regeneration keeps the texture bindings of the three batches. -/
theorem GenerateGeometry_texture {F : Type} [OfNat F 0] [OfNat F 1] [Add F] [Sub F] [Mul F] [LT F]
    [DecidableRel (fun a b : F => a < b)] [IntCast F]
    (s : ElementProgressBar F) :
    (GenerateGeometry s).left_geometry.texture = s.left_geometry.texture ∧
      (GenerateGeometry s).center_geometry.texture = s.center_geometry.texture ∧
      (GenerateGeometry s).right_geometry.texture = s.right_geometry.texture := by
  refine ⟨rfl, ?_, rfl⟩
  by_cases hpos : 0 < (final_part_size s 1).x
  · rw [GenerateGeometry_center_pos s hpos]
  · rw [GenerateGeometry_center_nonpos s hpos]

/-- The regenerated buffers depend on the state only through the part sizes. -/
theorem GenerateGeometry_congr {F : Type} [OfNat F 0] [OfNat F 1] [Add F] [Sub F] [Mul F] [LT F]
    [DecidableRel (fun a b : F => a < b)] [IntCast F]
    (s t : ElementProgressBar F)
    (h : final_part_size s = final_part_size t) :
    (GenerateGeometry s).left_geometry.vertices = (GenerateGeometry t).left_geometry.vertices ∧
      (GenerateGeometry s).left_geometry.indices = (GenerateGeometry t).left_geometry.indices ∧
      (GenerateGeometry s).center_geometry.vertices
        = (GenerateGeometry t).center_geometry.vertices ∧
      (GenerateGeometry s).center_geometry.indices
        = (GenerateGeometry t).center_geometry.indices ∧
      (GenerateGeometry s).right_geometry.vertices
        = (GenerateGeometry t).right_geometry.vertices ∧
      (GenerateGeometry s).right_geometry.indices
        = (GenerateGeometry t).right_geometry.indices := by
  rw [GenerateGeometry_left, GenerateGeometry_right, GenerateGeometry_left,
    GenerateGeometry_right]
  by_cases hpos : 0 < (final_part_size s 1).x
  · have hpos2 : 0 < (final_part_size t 1).x := by rw [← h]; exact hpos
    rw [GenerateGeometry_center_pos s hpos, GenerateGeometry_center_pos t hpos2, h]
    exact ⟨rfl, rfl, rfl, rfl, rfl, rfl⟩
  · have hpos2 : ¬ 0 < (final_part_size t 1).x := by rw [← h]; exact hpos
    rw [GenerateGeometry_center_nonpos s hpos, GenerateGeometry_center_nonpos t hpos2, h]
    exact ⟨rfl, rfl, rfl, rfl, rfl, rfl⟩

/-- Two batches are equal when their buffers and bindings are. -/
theorem Geometry_ext {F : Type}
    (g g2 : Geometry F) (hv : g.vertices = g2.vertices)
    (hi : g.indices = g2.indices) (ht : g.texture = g2.texture) : g = g2 := by
  cases g; cases g2; simp_all

/-- The batches of `s` are those regenerated from `t` as soon as the buffers
agree and `t` carries the bindings of `s`. -/
theorem batches_eq_of_buffers {F : Type} [OfNat F 0] [OfNat F 1] [Add F] [Sub F] [Mul F] [LT F]
    [DecidableRel (fun a b : F => a < b)] [IntCast F]
    (s t : ElementProgressBar F)
    (hl : s.left_geometry.texture = t.left_geometry.texture)
    (hc : s.center_geometry.texture = t.center_geometry.texture)
    (hr : s.right_geometry.texture = t.right_geometry.texture)
    (hlv : s.left_geometry.vertices = (GenerateGeometry t).left_geometry.vertices)
    (hli : s.left_geometry.indices = (GenerateGeometry t).left_geometry.indices)
    (hcv : s.center_geometry.vertices = (GenerateGeometry t).center_geometry.vertices)
    (hci : s.center_geometry.indices = (GenerateGeometry t).center_geometry.indices)
    (hrv : s.right_geometry.vertices = (GenerateGeometry t).right_geometry.vertices)
    (hri : s.right_geometry.indices = (GenerateGeometry t).right_geometry.indices) :
    batches s = batches (GenerateGeometry t) := by
  obtain ⟨h1, h2, h3⟩ := GenerateGeometry_texture t
  unfold batches
  rw [Geometry_ext _ _ hlv hli (hl.trans h1.symm), Geometry_ext _ _ hcv hci (hc.trans h2.symm),
    Geometry_ext _ _ hrv hri (hr.trans h3.symm)]

/-- Equal batches have equal buffers and bindings. -/
theorem buffers_of_batches_eq {F : Type}
    (s u : ElementProgressBar F) (h : batches s = batches u) :
    s.left_geometry = u.left_geometry ∧ s.center_geometry = u.center_geometry ∧
      s.right_geometry = u.right_geometry := by
  unfold batches at h
  simp only [Prod.mk.injEq] at h
  exact h

/-- Regenerating twice gives the batches of regenerating once. -/
theorem GenerateGeometry_idem {F : Type} [OfNat F 0] [OfNat F 1] [Add F] [Sub F] [Mul F] [LT F]
    [DecidableRel (fun a b : F => a < b)] [IntCast F]
    (s : ElementProgressBar F) :
    batches (GenerateGeometry s) = batches (GenerateGeometry (GenerateGeometry s)) := by
  obtain ⟨a, b, c, d, e, f⟩ :=
    GenerateGeometry_congr s (GenerateGeometry s) rfl
  exact batches_eq_of_buffers (GenerateGeometry s) (GenerateGeometry s) rfl rfl rfl a b c d e f

/-- What `OnPropertyChange` never touches: the host element, the dirty flag, the
cached value and the vertex and index buffers. -/
theorem OnPropertyChange_frame {F : Type}
    (tk : Toolkit) (s : ElementProgressBar F)
    (changed : Finset String) :
    (OnPropertyChange tk s changed).toElement = s.toElement ∧
      (OnPropertyChange tk s changed).geometry_dirty = s.geometry_dirty ∧
      (OnPropertyChange tk s changed).value = s.value ∧
      (OnPropertyChange tk s changed).left_geometry.vertices = s.left_geometry.vertices ∧
      (OnPropertyChange tk s changed).left_geometry.indices = s.left_geometry.indices ∧
      (OnPropertyChange tk s changed).center_geometry.vertices = s.center_geometry.vertices ∧
      (OnPropertyChange tk s changed).center_geometry.indices = s.center_geometry.indices ∧
      (OnPropertyChange tk s changed).right_geometry.vertices = s.right_geometry.vertices ∧
      (OnPropertyChange tk s changed).right_geometry.indices = s.right_geometry.indices := by
  have key : ∀ (c : Prop) [Decidable c] (u : ElementProgressBar F) (index : ℤ),
      (if c then LoadTexture tk u index else u).toElement = u.toElement ∧
      (if c then LoadTexture tk u index else u).geometry_dirty = u.geometry_dirty ∧
      (if c then LoadTexture tk u index else u).value = u.value ∧
      (if c then LoadTexture tk u index else u).left_geometry.vertices
        = u.left_geometry.vertices ∧
      (if c then LoadTexture tk u index else u).left_geometry.indices
        = u.left_geometry.indices ∧
      (if c then LoadTexture tk u index else u).center_geometry.vertices
        = u.center_geometry.vertices ∧
      (if c then LoadTexture tk u index else u).center_geometry.indices
        = u.center_geometry.indices ∧
      (if c then LoadTexture tk u index else u).right_geometry.vertices
        = u.right_geometry.vertices ∧
      (if c then LoadTexture tk u index else u).right_geometry.indices
        = u.right_geometry.indices := by
    intro c _ u index
    by_cases hc : c
    · simp only [if_pos hc]; exact LoadTexture_frame tk u index
    · simp [hc]
  rw [OnPropertyChange_eq]
  obtain ⟨a1, a2, a3, a4, a5, a6, a7, a8, a9⟩ := key ("progress-left-src" ∈ changed) s 0
  obtain ⟨b1, b2, b3, b4, b5, b6, b7, b8, b9⟩ := key ("progress-center-src" ∈ changed)
    (if "progress-left-src" ∈ changed then LoadTexture tk s 0 else s) 1
  obtain ⟨c1, c2, c3, c4, c5, c6, c7, c8, c9⟩ := key ("progress-right-src" ∈ changed)
    (if "progress-center-src" ∈ changed then
      LoadTexture tk (if "progress-left-src" ∈ changed then LoadTexture tk s 0 else s) 1
     else (if "progress-left-src" ∈ changed then LoadTexture tk s 0 else s)) 2
  exact ⟨c1.trans (b1.trans a1), c2.trans (b2.trans a2), c3.trans (b3.trans a3),
    c4.trans (b4.trans a4), c5.trans (b5.trans a5), c6.trans (b6.trans a6),
    c7.trans (b7.trans a7), c8.trans (b8.trans a8), c9.trans (b9.trans a9)⟩

/-- The dirty-flag invariant relative to the snapshot of the last regeneration
is kept by every event. -/
theorem track_invariant (p : ElementProgressBar ℚ × Snapshot ℚ) (op : Op ℚ)
    (h : p.1.geometry_dirty = false →
      batches p.1 = batches (GenerateGeometry (withSnapshot p.1 p.2))) :
    (track p op).1.geometry_dirty = false →
      batches (track p op).1 = batches (GenerateGeometry (withSnapshot (track p op).1
        (track p op).2)) := by
  obtain ⟨s, snap⟩ := p
  cases op with
  | SetValue v =>
    intro hd
    exact h hd
  | OnAttributeChange changed =>
    intro hd
    by_cases hmem : "value" ∈ changed
    · simp [track, step, OnAttributeChange, hmem] at hd
    · have hs : OnAttributeChange s changed = s := by
        simp [OnAttributeChange, hmem, Element.OnAttributeChange]
      simp only [track, step, hs] at hd ⊢
      exact h hd
  | OnPropertyChange tk changed =>
    intro hd
    obtain ⟨-, f2, f3, f4, f5, f6, f7, f8, f9⟩ := OnPropertyChange_frame tk s changed
    simp only [track, step] at hd ⊢
    rw [f2] at hd
    obtain ⟨g1, g2, g3⟩ := buffers_of_batches_eq _ _ (h hd)
    have hsize : final_part_size (withSnapshot s snap)
        = final_part_size (withSnapshot (OnPropertyChange tk s changed) snap) := by
      funext i
      simp only [final_part_size, progress_size, withSnapshot, f3]
    obtain ⟨c1, c2, c3, c4, c5, c6⟩ := GenerateGeometry_congr _ _ hsize
    simp only at g1 g2 g3
    refine batches_eq_of_buffers _ _ rfl rfl rfl ?_ ?_ ?_ ?_ ?_ ?_
    · rw [f4, g1]; exact c1
    · rw [f5, g1]; exact c2
    · rw [f6, g2]; exact c3
    · rw [f7, g2]; exact c4
    · rw [f8, g3]; exact c5
    · rw [f9, g3]; exact c6
  | Resize size =>
    intro hd
    exact h hd
  | OnRender =>
    intro _
    cases hdirty : s.geometry_dirty
    · have hs : OnRender s = _ := OnRender_clean s hdirty
      simp only [track, step, hs, hdirty]
      exact h hdirty
    · have hs : (OnRender s).1 = GenerateGeometry s := by simp [OnRender, hdirty]
      simp only [track, step, hs, hdirty, if_true]
      exact GenerateGeometry_idem s

end ElementProgressBar

end Rocket

namespace Rocket

namespace ElementProgressBar

/-- The tracked run visits the states of the plain run. -/
theorem runTracked_fst (ops : List (Op ℚ)) (s : ElementProgressBar ℚ) (snap : Snapshot ℚ) :
    (runTracked s snap ops).1 = run s ops := by
  induction ops generalizing s snap with
  | nil => rfl
  | cons op ops ih =>
    simp only [runTracked, run, List.foldl_cons] at ih ⊢
    exact ih (step s op) (track (s, snap) op).2

/-- The invariant of `track_invariant` holds along every tracked run that
starts in a state where it holds. -/
theorem runTracked_invariant (ops : List (Op ℚ)) (p : ElementProgressBar ℚ × Snapshot ℚ)
    (h : p.1.geometry_dirty = false →
      batches p.1 = batches (GenerateGeometry (withSnapshot p.1 p.2))) :
    (runTracked p.1 p.2 ops).1.geometry_dirty = false →
      batches (runTracked p.1 p.2 ops).1 =
        batches (GenerateGeometry (withSnapshot (runTracked p.1 p.2 ops).1
          (runTracked p.1 p.2 ops).2)) := by
  induction ops generalizing p with
  | nil => exact h
  | cons op ops ih =>
    have hstep := ih (track p op) (track_invariant p op h)
    simpa only [runTracked, List.foldl_cons] using hstep

/-- Regeneration leaves the host element and the texture slots alone. -/
theorem GenerateGeometry_host {F : Type} [OfNat F 0] [OfNat F 1] [Add F] [Sub F] [Mul F] [LT F]
    [DecidableRel (fun a b : F => a < b)] [IntCast F]
    (s : ElementProgressBar F) :
    (GenerateGeometry s).toElement = s.toElement ∧ (GenerateGeometry s).texture = s.texture :=
  ⟨rfl, rfl⟩

/-- C6 (counterexample): after a first render and a successful load of a
10-pixel left cap, the dirty flag is false although the left batch still has
the zero-width quad, not the quad regeneration would produce. -/
theorem dirty_invariant_counterexample :
    (run (new sampleElement)
        [Op.OnRender, Op.OnPropertyChange sampleToolkit {"progress-left-src"}]).geometry_dirty
      = false ∧
    batches (run (new sampleElement)
        [Op.OnRender, Op.OnPropertyChange sampleToolkit {"progress-left-src"}]) ≠
      batches (GenerateGeometry (run (new sampleElement)
        [Op.OnRender, Op.OnPropertyChange sampleToolkit {"progress-left-src"}])) := by
  constructor
  · simp [run, step, OnRender, new, OnPropertyChange, Element.OnPropertyChange,
      LoadTexture_zero, GenerateGeometry]
  · intro h
    have hx := congrArg (fun b => b.1.vertices.map (fun v => v.position.x)) h
    revert hx
    simp [run, step, OnRender, new, OnPropertyChange, Element.OnPropertyChange,
      LoadTexture_zero, batches, GenerateGeometry_left, final_part_size, sampleElement,
      sampleToolkit, Texture.Load, Texture.GetDimensions, Element.GetProperty, source_url,
      Geometry.SetTexture, (GenerateGeometry_host (_ : ElementProgressBar ℚ)).1,
      (GenerateGeometry_host (_ : ElementProgressBar ℚ)).2]

/-- C6 (amended): in every state reached from construction by any sequence of
`SetValue`, `OnAttributeChange`, `OnPropertyChange`, content-box resizes and
`OnRender`, whenever the dirty flag is false and the left and right texture
dimensions and the content-box size are those read by the most recent
regeneration, the three batches equal what regeneration would produce from
the current cached value, texture dimensions and content-box size. -/
theorem dirty_invariant_since_last_regeneration (e : Element ℚ) (snap0 : Snapshot ℚ)
    (ops : List (Op ℚ))
    (hd : (run (new e) ops).geometry_dirty = false)
    (h0 : ((runTracked (new e) snap0 ops).2.texture 0).GetDimensions
      = ((run (new e) ops).texture 0).GetDimensions)
    (h2 : ((runTracked (new e) snap0 ops).2.texture 2).GetDimensions
      = ((run (new e) ops).texture 2).GetDimensions)
    (hc : (runTracked (new e) snap0 ops).2.content_size = (run (new e) ops).content_size) :
    batches (run (new e) ops) = batches (GenerateGeometry (run (new e) ops)) := by
  have hfst := runTracked_fst ops (new e) snap0
  have hinv := runTracked_invariant ops (new e, snap0) (fun hnew => by simp [new] at hnew)
  simp only [hfst] at hinv
  have hb := hinv hd
  have hsize : final_part_size
      (withSnapshot (run (new e) ops) (runTracked (new e) snap0 ops).2)
      = final_part_size (run (new e) ops) := by
    funext i
    simp only [final_part_size, progress_size, withSnapshot, h0, h2, hc]
  obtain ⟨c1, c2, c3, c4, c5, c6⟩ := GenerateGeometry_congr _ _ hsize
  obtain ⟨g1, g2, g3⟩ := buffers_of_batches_eq _ _ hb
  refine batches_eq_of_buffers _ _ rfl rfl rfl ?_ ?_ ?_ ?_ ?_ ?_
  · rw [g1]; exact c1
  · rw [g1]; exact c2
  · rw [g2]; exact c3
  · rw [g2]; exact c4
  · rw [g3]; exact c5
  · rw [g3]; exact c6

/-- The events that build the sample widget and render it once. -/
theorem sampleOps_run :
    run (new sampleElement) sampleOps = (OnRender sampleBar).1 ∧
      (runTracked (new sampleElement) sampleSnapshot sampleOps).2
        = ⟨sampleBar.texture, sampleBar.content_size⟩ := by
  have hdirty : sampleBar.geometry_dirty = true := by
    simp [sampleBar, OnAttributeChange]
  constructor
  · rfl
  · show (if sampleBar.geometry_dirty = true then
        (⟨sampleBar.texture, sampleBar.content_size⟩ : Snapshot ℚ) else sampleSnapshot) = _
    rw [if_pos hdirty]

/-- Witness for C6 (amended): both caps loaded, value set to one half and
notified, then one render. -/
theorem dirty_invariant_since_last_regeneration_witness :
    (run (new sampleElement) sampleOps).geometry_dirty = false ∧
      ((runTracked (new sampleElement) sampleSnapshot sampleOps).2.texture 0).GetDimensions
        = ((run (new sampleElement) sampleOps).texture 0).GetDimensions ∧
      ((runTracked (new sampleElement) sampleSnapshot sampleOps).2.texture 2).GetDimensions
        = ((run (new sampleElement) sampleOps).texture 2).GetDimensions ∧
      (runTracked (new sampleElement) sampleSnapshot sampleOps).2.content_size
        = (run (new sampleElement) sampleOps).content_size ∧
      batches (run (new sampleElement) sampleOps)
        = batches (GenerateGeometry (run (new sampleElement) sampleOps)) :=
  have hd : (run (new sampleElement) sampleOps).geometry_dirty = false := by
    rw [sampleOps_run.1]; exact OnRender_dirty sampleBar
  have hren : (OnRender sampleBar).1.toElement = sampleBar.toElement ∧
      (OnRender sampleBar).1.texture = sampleBar.texture := by
    unfold OnRender
    cases sampleBar.geometry_dirty <;> exact ⟨rfl, rfl⟩
  have h0 : ((runTracked (new sampleElement) sampleSnapshot sampleOps).2.texture 0).GetDimensions
      = ((run (new sampleElement) sampleOps).texture 0).GetDimensions := by
    rw [sampleOps_run.1, sampleOps_run.2, hren.2]
  have h2 : ((runTracked (new sampleElement) sampleSnapshot sampleOps).2.texture 2).GetDimensions
      = ((run (new sampleElement) sampleOps).texture 2).GetDimensions := by
    rw [sampleOps_run.1, sampleOps_run.2, hren.2]
  have hc : (runTracked (new sampleElement) sampleSnapshot sampleOps).2.content_size
      = (run (new sampleElement) sampleOps).content_size := by
    rw [sampleOps_run.1, sampleOps_run.2]
    show sampleBar.toElement.content_size = (OnRender sampleBar).1.toElement.content_size
    rw [hren.1]
  ⟨hd, h0, h2, hc,
    dirty_invariant_since_last_regeneration sampleElement sampleSnapshot sampleOps hd h0 h2 hc⟩

end ElementProgressBar

end Rocket

namespace Rocket

namespace ElementProgressBar

/-! ## Layout of the three quads -/

/-- The three part sizes in terms of the cap widths and the content box. -/
theorem final_part_size_eq (s : ElementProgressBar ℚ) :
    final_part_size s 0 = ⟨(((s.texture 0).GetDimensions.x : ℤ) : ℚ), s.content_size.y⟩ ∧
      final_part_size s 1 = ⟨progress_size s, s.content_size.y⟩ ∧
      final_part_size s 2 = ⟨(((s.texture 2).GetDimensions.x : ℤ) : ℚ), s.content_size.y⟩ :=
  ⟨rfl, rfl, rfl⟩

/-- The center width of the sample widget is 90. -/
theorem sampleBar_progress_size : progress_size sampleBar = 90 := by
  obtain ⟨h0, h2, hc, hv⟩ := sampleBar_dims
  simp only [progress_size, h0, h2, hc, hv]
  norm_num

/-- C11: after every regeneration the quads are placed contiguously from the
left and share the content height: the left quad has origin (0,0) and size
(leftWidth, contentHeight), the center quad, when generated, origin
(leftWidth, 0) and size (centerWidth, contentHeight), the right quad origin
(leftWidth + centerWidth, 0) and size (rightWidth, contentHeight).  In the
sample widget (content box 200x20, caps 10 and 10, value one half) the center
width is 90 and the quads start at x = 0, 10 and 100. -/
theorem quads_contiguous (s : ElementProgressBar ℚ) :
    (GenerateGeometry s).left_geometry.vertices.map (fun v => v.position) =
        corners ⟨0, 0⟩ ⟨(((s.texture 0).GetDimensions.x : ℤ) : ℚ), s.content_size.y⟩ ∧
      (0 < progress_size s →
        (GenerateGeometry s).center_geometry.vertices.map (fun v => v.position) =
          corners ⟨(((s.texture 0).GetDimensions.x : ℤ) : ℚ), 0⟩
            ⟨progress_size s, s.content_size.y⟩) ∧
      (GenerateGeometry s).right_geometry.vertices.map (fun v => v.position) =
        corners ⟨(((s.texture 0).GetDimensions.x : ℤ) : ℚ) + progress_size s, 0⟩
          ⟨(((s.texture 2).GetDimensions.x : ℤ) : ℚ), s.content_size.y⟩ ∧
      progress_size sampleBar = 90 ∧
      ((GenerateGeometry sampleBar).left_geometry.vertices.map (fun v => v.position.x)).head?
        = some 0 ∧
      ((GenerateGeometry sampleBar).center_geometry.vertices.map (fun v => v.position.x)).head?
        = some 10 ∧
      ((GenerateGeometry sampleBar).right_geometry.vertices.map (fun v => v.position.x)).head?
        = some 100 := by
  obtain ⟨h0, h2, hc, hv⟩ := sampleBar_dims
  have hp := sampleBar_progress_size
  have hpos : 0 < (final_part_size sampleBar 1).x := by
    rw [final_part_size_center_x, hp]; norm_num
  refine ⟨?_, ?_, ?_, hp, ?_, ?_, ?_⟩
  · rw [GenerateGeometry_left]; rfl
  · intro hgen
    rw [GenerateGeometry_center_pos s hgen]; rfl
  · rw [GenerateGeometry_right]; rfl
  · rw [GenerateGeometry_left]; rfl
  · rw [GenerateGeometry_center_pos sampleBar hpos]
    simp [final_part_size, h0]
  · rw [GenerateGeometry_right]
    simp [final_part_size, h0, hp]
    norm_num

/-! ## Value change followed by a render -/

/-- The state after `OnAttributeChange` when "value" is among the changed
attributes. -/
theorem OnAttributeChange_mem (s : ElementProgressBar ℚ) (changed : Finset String)
    (h : "value" ∈ changed) :
    OnAttributeChange s changed =
      { s with value := max 0 (min 1 (s.toElement.GetAttribute "value" 0)),
               geometry_dirty := true } := by
  simp only [OnAttributeChange, Element.OnAttributeChange, if_pos h, clamp_eq_max_min]

/-- The state after `OnAttributeChange` when "value" is not among the changed
attributes. -/
theorem OnAttributeChange_not_mem {F : Type} [OfNat F 0] [OfNat F 1] [LT F] [DecidableRel (fun a b : F => a < b)]
    (s : ElementProgressBar F) (changed : Finset String)
    (h : "value" ∉ changed) : OnAttributeChange s changed = s := by
  simp only [OnAttributeChange, Element.OnAttributeChange, if_neg h]

/-- With the dirty flag set `OnRender` regenerates and then submits the three
batches. -/
theorem OnRender_of_dirty {F : Type} [OfNat F 0] [OfNat F 1] [Add F] [Sub F] [Mul F] [LT F]
    [DecidableRel (fun a b : F => a < b)] [IntCast F]
    (s : ElementProgressBar F) (h : s.geometry_dirty = true) :
    OnRender s = (GenerateGeometry s,
      [Call.GenerateGeometry,
       Call.Render (GenerateGeometry s).left_geometry (GenerateGeometry s).absolute_offset,
       Call.Render (GenerateGeometry s).center_geometry (GenerateGeometry s).absolute_offset,
       Call.Render (GenerateGeometry s).right_geometry (GenerateGeometry s).absolute_offset]) := by
  simp [OnRender, h]

/-- The state rendered after `SetValue v` and the "value" notification is the
regeneration of the widget with the clamped value cached. -/
theorem render_after_value_change (s : ElementProgressBar ℚ) (v : ℚ) (changed : Finset String)
    (h : "value" ∈ changed) :
    (OnRender (OnAttributeChange (SetValue s v) changed)).1 =
      GenerateGeometry
        { SetValue s v with value := max 0 (min 1 v), geometry_dirty := true } := by
  rw [OnAttributeChange_mem _ _ h, GetAttribute_SetValue, OnRender_of_dirty _ rfl]

/-- C13: for every `v ≥ 1`, after `SetValue v`, the "value" change notification
and the next `OnRender`, the center width is the full remaining span
`contentWidth - leftWidth - rightWidth`, so the right quad starts at
`contentWidth - rightWidth` and ends at `contentWidth`. -/
theorem center_full_of_ge_one (s : ElementProgressBar ℚ) (v : ℚ) (changed : Finset String)
    (hv : 1 ≤ v) (h : "value" ∈ changed) :
    progress_size (OnRender (OnAttributeChange (SetValue s v) changed)).1 =
        s.content_size.x - (((s.texture 0).GetDimensions.x : ℤ) : ℚ)
          - (((s.texture 2).GetDimensions.x : ℤ) : ℚ) ∧
      (OnRender (OnAttributeChange (SetValue s v) changed)).1.right_geometry.vertices.map
          (fun w => w.position.x) =
        [s.content_size.x - (((s.texture 2).GetDimensions.x : ℤ) : ℚ), s.content_size.x,
         s.content_size.x, s.content_size.x - (((s.texture 2).GetDimensions.x : ℤ) : ℚ)] := by
  have hclamp : max 0 (min 1 v) = 1 := by
    rw [min_eq_left hv, max_eq_right (by norm_num)]
  rw [render_after_value_change s v changed h, hclamp]
  have hprog : progress_size
      { SetValue s v with value := (1 : ℚ), geometry_dirty := true } =
        s.content_size.x - (((s.texture 0).GetDimensions.x : ℤ) : ℚ)
          - (((s.texture 2).GetDimensions.x : ℤ) : ℚ) := by
    simp [progress_size, SetValue, Element.SetAttribute]
  refine ⟨hprog, ?_⟩
  rw [GenerateGeometry_right]
  simp only [List.map, final_part_size_center_x, hprog]
  simp only [final_part_size, SetValue, Element.SetAttribute, if_true, if_false,
    List.cons.injEq, and_true]
  norm_num
  exact ⟨by ring, by ring, by ring⟩

/-- Witness for C13 at the value 17/10 on the sample widget. -/
theorem center_full_of_ge_one_witness :
    ((1 : ℚ) ≤ 17 / 10) ∧ "value" ∈ ({"value"} : Finset String) ∧
      (progress_size (OnRender (OnAttributeChange (SetValue sampleBar (17 / 10)) {"value"})).1 =
          sampleBar.content_size.x - (((sampleBar.texture 0).GetDimensions.x : ℤ) : ℚ)
            - (((sampleBar.texture 2).GetDimensions.x : ℤ) : ℚ) ∧
        (OnRender (OnAttributeChange (SetValue sampleBar (17 / 10))
            {"value"})).1.right_geometry.vertices.map (fun w => w.position.x) =
          [sampleBar.content_size.x - (((sampleBar.texture 2).GetDimensions.x : ℤ) : ℚ),
           sampleBar.content_size.x, sampleBar.content_size.x,
           sampleBar.content_size.x - (((sampleBar.texture 2).GetDimensions.x : ℤ) : ℚ)]) :=
  ⟨by norm_num, by simp,
    center_full_of_ge_one sampleBar (17 / 10) {"value"} (by norm_num) (by simp)⟩

end ElementProgressBar

end Rocket

namespace Rocket

namespace ElementProgressBar

/-! ## Range of the cached value with not-a-number -/

/-- Every event whose `SetValue` argument is a number keeps the value
attribute a number and the cached value within [0,1]. -/
theorem step_value_range_CFloat (s : ElementProgressBar CFloat) (op : Op CFloat)
    (hop : ∀ v, op = Op.SetValue v → v ≠ CFloat.nan)
    (h : s.attributes "value" ≠ some CFloat.nan ∧ (0 : CFloat) ≤ s.value ∧
      s.value ≤ (1 : CFloat)) :
    (step s op).attributes "value" ≠ some CFloat.nan ∧ (0 : CFloat) ≤ (step s op).value ∧
      (step s op).value ≤ (1 : CFloat) := by
  cases op with
  | SetValue v =>
    have hv := hop v rfl
    refine ⟨?_, h.2⟩
    have hw : (step s (Op.SetValue v)).attributes "value" = some v := by
      simp [step, SetValue, Element.SetAttribute]
    rw [hw]
    intro hsome
    exact hv (Option.some.inj hsome)
  | OnAttributeChange changed =>
    by_cases hmem : "value" ∈ changed
    · have hread : s.toElement.GetAttribute "value" 0 ≠ CFloat.nan := by
        unfold Element.GetAttribute
        cases hattr : s.attributes "value" with
        | none =>
          simp only []
          rw [CFloat.zero_eq]
          simp
        | some a =>
          simp only []
          intro ha
          exact h.1 (by rw [hattr, ha])
      obtain ⟨-, hlo, hhi⟩ := clamp_CFloat _ hread
      simp only [step, OnAttributeChange_mem_eq s changed hmem]
      exact ⟨h.1, hlo, hhi⟩
    · simp only [step, OnAttributeChange_not_mem s changed hmem]
      exact h
  | OnPropertyChange tk changed =>
    obtain ⟨hel, -, hval, -⟩ := OnPropertyChange_frame tk s changed
    have hattr : (step s (Op.OnPropertyChange tk changed)).attributes
        = s.attributes := by
      show (OnPropertyChange tk s changed).toElement.attributes = s.toElement.attributes
      rw [hel]
    simp only [hattr]
    simp only [step, hval]
    exact h
  | Resize size => exact h
  | OnRender =>
    have hsame : (OnRender s).1.toElement = s.toElement ∧ (OnRender s).1.value = s.value := by
      unfold OnRender
      cases s.geometry_dirty <;> exact ⟨rfl, rfl⟩
    have hattr : (step s Op.OnRender).attributes = s.attributes := by
      show (OnRender s).1.toElement.attributes = s.toElement.attributes
      rw [hsame.1]
    simp only [hattr]
    simp only [step, hsame.2]
    exact h

/-- The invariant of `step_value_range_CFloat` along a sequence of events
whose `SetValue` arguments are numbers. -/
theorem run_value_range_CFloat (ops : List (Op CFloat)) (s : ElementProgressBar CFloat)
    (hops : ∀ v, Op.SetValue v ∈ ops → v ≠ CFloat.nan)
    (h : s.attributes "value" ≠ some CFloat.nan ∧ (0 : CFloat) ≤ s.value ∧
      s.value ≤ (1 : CFloat)) :
    (run s ops).attributes "value" ≠ some CFloat.nan ∧ (0 : CFloat) ≤ (run s ops).value ∧
      (run s ops).value ≤ (1 : CFloat) := by
  induction ops generalizing s with
  | nil => exact h
  | cons op ops ih =>
    simp only [run, List.foldl_cons]
    apply ih
    · intro v hv
      exact hops v (List.mem_cons_of_mem op hv)
    · apply step_value_range_CFloat s op _ h
      intro v hv
      apply hops v
      rw [hv]
      exact List.mem_cons_self _ _

/-- C14 (counterexample): from a fresh widget, `SetValue(NAN)` followed by the
"value" change notification leaves the cached value not-a-number, which is
not within [0,1]. -/
theorem value_leaves_unit_interval :
    (run (new sampleElementC) nanOps).value = CFloat.nan ∧
      ¬ ((0 : CFloat) ≤ (run (new sampleElementC) nanOps).value ∧
        (run (new sampleElementC) nanOps).value ≤ (1 : CFloat)) := by
  have hv : (run (new sampleElementC) nanOps).value = CFloat.nan := nanBar_value
  rw [hv]
  exact ⟨rfl, fun h => (CFloat.nan_not_le 1).1 h.2⟩

/-- C14 (amended): the cached value is 0 at construction and lies within [0,1]
after any sequence of `SetValue`, `OnAttributeChange`, `OnPropertyChange`,
resize and `OnRender` events, provided the value attribute is not
not-a-number at construction and no `SetValue` argument is not-a-number. -/
theorem value_in_unit_interval (e : Element CFloat) (ops : List (Op CFloat))
    (he : e.attributes "value" ≠ some CFloat.nan)
    (hops : ∀ v, Op.SetValue v ∈ ops → v ≠ CFloat.nan) :
    (new e).value = 0 ∧ (0 : CFloat) ≤ (run (new e) ops).value ∧
      (run (new e) ops).value ≤ (1 : CFloat) := by
  refine ⟨rfl, ?_⟩
  have h0 : (0 : CFloat) ≤ (new e).value ∧ (new e).value ≤ (1 : CFloat) := by
    show (0 : CFloat) ≤ 0 ∧ (0 : CFloat) ≤ 1
    rw [CFloat.zero_eq, CFloat.one_eq, CFloat.fin_le_fin, CFloat.fin_le_fin]
    exact ⟨le_refl 0, zero_le_one⟩
  exact (run_value_range_CFloat ops (new e) hops ⟨he, h0⟩).2

/-- No `SetValue` argument of the events `rangeOps` is not-a-number. -/
theorem rangeOps_numbers : ∀ v, Op.SetValue v ∈ rangeOps → v ≠ CFloat.nan := by
  intro v hv
  simp only [rangeOps, List.mem_cons, Op.SetValue.injEq, List.mem_singleton, reduceCtorEq,
    or_false, false_or, List.not_mem_nil] at hv
  rcases hv with h | h
  · rw [h]; simp
  · rw [h]; simp

/-- The events `rangeOps` leave the cached value 1 on a fresh widget. -/
theorem rangeOps_value : (run (new sampleElementC) rangeOps).value = 1 := by
  have h1 : (run (new sampleElementC) rangeOps).value
      = (OnAttributeChange (SetValue (OnPropertyChange sampleToolkit
          (OnAttributeChange (SetValue (new sampleElementC) CFloat.neg_inf) {"value"})
          {"progress-left-src"}) (CFloat.fin (17 / 10))) {"value"}).value := by
    simp only [run, rangeOps, List.foldl_cons, List.foldl_nil, step]
    unfold OnRender
    cases (Resize _ _).geometry_dirty <;> rfl
  rw [h1, OnAttributeChange_mem_eq _ _ (by simp)]
  simp only [GetAttribute_SetValue]
  rw [(clamp_CFloat (CFloat.fin (17 / 10)) (by simp)).1]
  rw [CFloat.zero_eq, CFloat.one_eq, CFloat.fmin_fin, CFloat.fmax_fin]
  congr 1
  rw [min_eq_left (by norm_num), max_eq_right (by norm_num)]

/-- Witness for C14 (amended) on the events `rangeOps`, which end with the
cached value 1. -/
theorem value_in_unit_interval_witness :
    sampleElementC.attributes "value" ≠ some CFloat.nan ∧
      (∀ v, Op.SetValue v ∈ rangeOps → v ≠ CFloat.nan) ∧
      ((new sampleElementC).value = 0 ∧ (0 : CFloat) ≤ (run (new sampleElementC) rangeOps).value ∧
        (run (new sampleElementC) rangeOps).value ≤ (1 : CFloat)) ∧
      (run (new sampleElementC) rangeOps).value = 1 :=
  have he : sampleElementC.attributes "value" ≠ some CFloat.nan := by
    simp [sampleElementC]
  ⟨he, rangeOps_numbers, value_in_unit_interval sampleElementC rangeOps he rangeOps_numbers,
    rangeOps_value⟩

/-! ## Rendering a dirty widget -/

/-- C15: for every widget state whose dirty flag is set (the freshly
constructed widget is one), `OnRender` regenerates before it submits, leaves
the dirty flag false and leaves the three batches equal to the geometry
computed from the current cached value, the current left and right texture
widths and the current content-box size; the state with the flag cleared
already holds all three rebuilt batches. -/
theorem OnRender_dirty_rebuilds (s : ElementProgressBar ℚ) (hd : s.geometry_dirty = true) :
    (OnRender s).1.geometry_dirty = false ∧
      (OnRender s).2.head? = some Call.GenerateGeometry ∧
      (OnRender s).1.left_geometry.vertices.map (fun v => v.position) =
        corners ⟨0, 0⟩ ⟨(((s.texture 0).GetDimensions.x : ℤ) : ℚ), s.content_size.y⟩ ∧
      (OnRender s).1.left_geometry.indices = [0, 3, 1, 1, 3, 2] ∧
      (0 < s.value * (s.content_size.x - (((s.texture 0).GetDimensions.x : ℤ) : ℚ)
            - (((s.texture 2).GetDimensions.x : ℤ) : ℚ)) →
        (OnRender s).1.center_geometry.vertices.map (fun v => v.position) =
            corners ⟨(((s.texture 0).GetDimensions.x : ℤ) : ℚ), 0⟩
              ⟨s.value * (s.content_size.x - (((s.texture 0).GetDimensions.x : ℤ) : ℚ)
                - (((s.texture 2).GetDimensions.x : ℤ) : ℚ)), s.content_size.y⟩ ∧
          (OnRender s).1.center_geometry.indices = [0, 3, 1, 1, 3, 2]) ∧
      (¬ 0 < s.value * (s.content_size.x - (((s.texture 0).GetDimensions.x : ℤ) : ℚ)
            - (((s.texture 2).GetDimensions.x : ℤ) : ℚ)) →
        (OnRender s).1.center_geometry.vertices = [] ∧
          (OnRender s).1.center_geometry.indices = []) ∧
      (OnRender s).1.right_geometry.vertices.map (fun v => v.position) =
        corners ⟨(((s.texture 0).GetDimensions.x : ℤ) : ℚ)
            + s.value * (s.content_size.x - (((s.texture 0).GetDimensions.x : ℤ) : ℚ)
              - (((s.texture 2).GetDimensions.x : ℤ) : ℚ)), 0⟩
          ⟨(((s.texture 2).GetDimensions.x : ℤ) : ℚ), s.content_size.y⟩ ∧
      (OnRender s).1.right_geometry.indices = [0, 3, 1, 1, 3, 2] ∧
      batches (OnRender s).1 = batches (GenerateGeometry (OnRender s).1) ∧
      (∀ e : Element ℚ, (new e).geometry_dirty = true) := by
  rw [OnRender_of_dirty s hd]
  refine ⟨rfl, rfl, ?_, ?_, ?_, ?_, ?_, ?_, GenerateGeometry_idem s, fun _ => rfl⟩
  · rw [GenerateGeometry_left]; rfl
  · rw [GenerateGeometry_left]
  · intro hpos
    have hpos2 : 0 < (final_part_size s 1).x := hpos
    simp only []
    rw [GenerateGeometry_center_pos s hpos2]
    exact ⟨rfl, rfl⟩
  · intro hneg
    have hneg2 : ¬ 0 < (final_part_size s 1).x := hneg
    simp only []
    rw [GenerateGeometry_center_nonpos s hneg2]
    exact ⟨rfl, rfl⟩
  · rw [GenerateGeometry_right]; rfl
  · rw [GenerateGeometry_right]

/-- Witness for C15 on the freshly constructed widget. -/
theorem OnRender_dirty_rebuilds_witness :
    (new sampleElement).geometry_dirty = true ∧
      (OnRender (new sampleElement)).1.geometry_dirty = false ∧
      (OnRender (new sampleElement)).1.left_geometry.indices = [0, 3, 1, 1, 3, 2] :=
  have h := OnRender_dirty_rebuilds (new sampleElement) rfl
  ⟨rfl, h.1, h.2.2.2.1⟩

/-! ## Frame of the attribute handler -/

/-- C16: `OnAttributeChange` sets the dirty flag when "value" is in the changed
set, whatever the newly clamped value; when "value" is not in the set it
leaves the cached value and the dirty flag unchanged; in neither case does it
modify the geometry batches, the texture slots or the texture bindings. -/
theorem OnAttributeChange_frame (s : ElementProgressBar ℚ) (changed : Finset String) :
    ("value" ∈ changed → (OnAttributeChange s changed).geometry_dirty = true) ∧
      ("value" ∉ changed →
        (OnAttributeChange s changed).value = s.value ∧
          (OnAttributeChange s changed).geometry_dirty = s.geometry_dirty) ∧
      batches (OnAttributeChange s changed) = batches s ∧
      (OnAttributeChange s changed).texture = s.texture ∧
      (∀ i : Fin 3, (slot_geometry (OnAttributeChange s changed) i).texture
        = (slot_geometry s i).texture) := by
  by_cases hmem : "value" ∈ changed
  · rw [OnAttributeChange_mem s changed hmem]
    exact ⟨fun _ => rfl, fun hn => absurd hmem hn, rfl, rfl, fun _ => rfl⟩
  · rw [OnAttributeChange_not_mem s changed hmem]
    exact ⟨fun hn => absurd hn hmem, fun _ => ⟨rfl, rfl⟩, rfl, rfl, fun _ => rfl⟩

/-! ## Caps wider than the content box -/

/-- C17: when the caps are wider than the content box and the cached value is
positive, regeneration still produces a state: the computed center width is
negative, the center batch is empty, and the right quad is emitted with 4
vertices at origin x = leftWidth + centerWidth, strictly left of leftWidth. -/
theorem caps_wider_than_content (s : ElementProgressBar ℚ)
    (hwide : s.content_size.x < (((s.texture 0).GetDimensions.x : ℤ) : ℚ)
      + (((s.texture 2).GetDimensions.x : ℤ) : ℚ))
    (hv : 0 < s.value) :
    progress_size s < 0 ∧
      (GenerateGeometry s).geometry_dirty = false ∧
      (GenerateGeometry s).center_geometry.vertices = [] ∧
      (GenerateGeometry s).center_geometry.indices = [] ∧
      (GenerateGeometry s).right_geometry.vertices.length = 4 ∧
      (GenerateGeometry s).right_geometry.indices.length = 6 ∧
      ((GenerateGeometry s).right_geometry.vertices.map (fun v => v.position)).head?
        = some ⟨(((s.texture 0).GetDimensions.x : ℤ) : ℚ) + progress_size s, 0⟩ ∧
      (((s.texture 0).GetDimensions.x : ℤ) : ℚ) + progress_size s
        < (((s.texture 0).GetDimensions.x : ℤ) : ℚ) := by
  have hneg : progress_size s < 0 := by
    unfold progress_size
    apply mul_neg_of_pos_of_neg hv
    linarith
  have hnot : ¬ 0 < (final_part_size s 1).x := by
    rw [final_part_size_center_x]; exact not_lt.mpr hneg.le
  refine ⟨hneg, rfl, ?_, ?_, ?_, ?_, ?_, by linarith⟩
  · rw [GenerateGeometry_center_nonpos s hnot]
  · rw [GenerateGeometry_center_nonpos s hnot]
  · rw [GenerateGeometry_right]; rfl
  · rw [GenerateGeometry_right]; rfl
  · rw [GenerateGeometry_right]; rfl

/-- The narrow sample widget has caps of width 10, a content box of width 15
and the value one half. -/
theorem narrowBar_dims :
    (narrowBar.texture 0).GetDimensions.x = 10 ∧ (narrowBar.texture 2).GetDimensions.x = 10 ∧
      narrowBar.content_size.x = 15 ∧ narrowBar.value = 1 / 2 := by
  obtain ⟨h0, h2, -, hv⟩ := sampleBar_dims
  exact ⟨h0, h2, rfl, hv⟩

/-- Witness for C17: caps 10 and 10 in a content box 15 wide, value one half. -/
theorem caps_wider_than_content_witness :
    (narrowBar.content_size.x < (((narrowBar.texture 0).GetDimensions.x : ℤ) : ℚ)
        + (((narrowBar.texture 2).GetDimensions.x : ℤ) : ℚ)) ∧
      0 < narrowBar.value ∧
      progress_size narrowBar < 0 ∧
      (GenerateGeometry narrowBar).center_geometry.vertices = [] ∧
      (GenerateGeometry narrowBar).right_geometry.vertices.length = 4 :=
  have hwide : narrowBar.content_size.x < (((narrowBar.texture 0).GetDimensions.x : ℤ) : ℚ)
      + (((narrowBar.texture 2).GetDimensions.x : ℤ) : ℚ) := by
    rw [narrowBar_dims.1, narrowBar_dims.2.1, narrowBar_dims.2.2.1]; norm_num
  have hv : 0 < narrowBar.value := by
    rw [narrowBar_dims.2.2.2]; norm_num
  have h := caps_wider_than_content narrowBar hwide hv
  ⟨hwide, hv, h.1, h.2.2.1, h.2.2.2.2.1⟩

end ElementProgressBar

end Rocket

namespace Helpers

/-! ## Clamping -/

/-- The four exported clamp functions are the template at their type. -/
theorem clamp_instances :
    (∀ v lo hi : ℤ, clampi v lo hi = clamp v lo hi) ∧
      (∀ v lo hi : ℕ, clampui v lo hi = clamp v lo hi) ∧
      (∀ v lo hi : CFloat, clampf v lo hi = clamp v lo hi) ∧
      (∀ v lo hi : CFloat, clampd v lo hi = clamp v lo hi) :=
  ⟨fun _ _ _ => rfl, fun _ _ _ => rfl, fun _ _ _ => rfl, fun _ _ _ => rfl⟩

/-- The clamp template on a linear order. -/
theorem clamp_linear {t : Type} [LinearOrder t] (v lo hi : t) (h : lo ≤ hi) :
    lo ≤ clamp v lo hi ∧ clamp v lo hi ≤ hi ∧
      (lo ≤ v → v ≤ hi → clamp v lo hi = v) ∧
      (hi < v → clamp v lo hi = hi) ∧
      (v < lo → clamp v lo hi = lo) ∧
      clamp (clamp v lo hi) lo hi = clamp v lo hi := by
  have hin : ∀ w : t, lo ≤ w → w ≤ hi → clamp w lo hi = w := by
    intro w h1 h2
    unfold clamp
    rw [if_neg (not_lt.mpr h2), if_neg (not_lt.mpr h1)]
  have hhi : hi < v → clamp v lo hi = hi := by
    intro h1
    unfold clamp
    rw [if_pos h1]
  have hlo : v < lo → clamp v lo hi = lo := by
    intro h1
    unfold clamp
    rw [if_neg (not_lt.mpr ((h1.le).trans h)), if_pos h1]
  have hrange : lo ≤ clamp v lo hi ∧ clamp v lo hi ≤ hi := by
    by_cases h1 : hi < v
    · rw [hhi h1]; exact ⟨h, le_refl hi⟩
    · by_cases h2 : v < lo
      · rw [hlo h2]; exact ⟨le_refl lo, h⟩
      · rw [hin v (not_lt.mp h2) (not_lt.mp h1)]
        exact ⟨not_lt.mp h2, not_lt.mp h1⟩
  exact ⟨hrange.1, hrange.2, hin v, hhi, hlo, hin _ hrange.1 hrange.2⟩

/-- The clamp template on `CFloat`, for a value that is a number. -/
theorem clamp_CFloat_number (v lo hi : CFloat) (hv : v ≠ CFloat.nan) (h : lo ≤ hi) :
    lo ≤ clamp v lo hi ∧ clamp v lo hi ≤ hi ∧
      (lo ≤ v → v ≤ hi → clamp v lo hi = v) ∧
      (hi < v → clamp v lo hi = hi) ∧
      (v < lo → clamp v lo hi = lo) ∧
      clamp (clamp v lo hi) lo hi = clamp v lo hi := by
  obtain ⟨hlon, hhin⟩ := CFloat.ne_nan_of_le lo hi h
  have hin : ∀ w : CFloat, lo ≤ w → w ≤ hi → clamp w lo hi = w := by
    intro w h1 h2
    unfold clamp
    rw [if_neg (CFloat.le_not_lt w hi h2), if_neg (CFloat.le_not_lt lo w h1)]
  have hhi : hi < v → clamp v lo hi = hi := by
    intro h1
    unfold clamp
    rw [if_pos h1]
  have hlo : v < lo → clamp v lo hi = lo := by
    intro h1
    unfold clamp
    rw [if_neg (CFloat.le_not_lt v hi (CFloat.le_transitive v lo hi (CFloat.lt_le v lo h1) h)),
      if_pos h1]
  have hrange : lo ≤ clamp v lo hi ∧ clamp v lo hi ≤ hi := by
    by_cases h1 : hi < v
    · rw [hhi h1]; exact ⟨h, CFloat.le_self hi hhin⟩
    · by_cases h2 : v < lo
      · rw [hlo h2]; exact ⟨CFloat.le_self lo hlon, h⟩
      · have h3 : lo ≤ v := CFloat.not_lt_le v lo hv hlon h2
        have h4 : v ≤ hi := CFloat.not_lt_le hi v hhin hv h1
        rw [hin v h3 h4]
        exact ⟨h3, h4⟩
  exact ⟨hrange.1, hrange.2, hin v, hhi, hlo, hin _ hrange.1 hrange.2⟩

/-- C18 (counterexample): `clampf(NAN, 0, 1)` and `clampd(NAN, 0, 1)` return
not-a-number, which is not between 0 and 1, although 0 ≤ 1. -/
theorem clampf_nan_unclamped :
    ((0 : CFloat) ≤ 1) ∧
      clampf CFloat.nan 0 1 = CFloat.nan ∧
      ¬ ((0 : CFloat) ≤ clampf CFloat.nan 0 1 ∧ clampf CFloat.nan 0 1 ≤ 1) ∧
      clampd CFloat.nan 0 1 = CFloat.nan ∧
      ¬ ((0 : CFloat) ≤ clampd CFloat.nan 0 1 ∧ clampd CFloat.nan 0 1 ≤ 1) := by
  have h01 : (0 : CFloat) ≤ 1 := by
    rw [CFloat.zero_eq, CFloat.one_eq, CFloat.fin_le_fin]
    exact zero_le_one
  have hf : clampf CFloat.nan 0 1 = CFloat.nan := by
    unfold clampf clamp
    rw [if_neg (CFloat.nan_not_lt 1).2, if_neg (CFloat.nan_not_lt 0).1]
  have hd : clampd CFloat.nan 0 1 = CFloat.nan := by
    unfold clampd clamp
    rw [if_neg (CFloat.nan_not_lt 1).2, if_neg (CFloat.nan_not_lt 0).1]
  refine ⟨h01, hf, ?_, hd, ?_⟩
  · rw [hf]; exact fun h => (CFloat.nan_not_le 1).1 h.2
  · rw [hd]; exact fun h => (CFloat.nan_not_le 1).1 h.2

/-- C18 (amended): for every `v`, `lo` and `hi` with `lo ≤ hi`, each of
`clampi` and `clampui`, and each of `clampf` and `clampd` when `v` is not
not-a-number, returns a result between `lo` and `hi`, returns `v` itself when
`lo ≤ v ≤ hi`, `hi` when `v > hi` and `lo` when `v < lo`, and is idempotent. -/
theorem clamp_spec :
    (∀ v lo hi : ℤ, lo ≤ hi →
      lo ≤ clampi v lo hi ∧ clampi v lo hi ≤ hi ∧
        (lo ≤ v → v ≤ hi → clampi v lo hi = v) ∧
        (hi < v → clampi v lo hi = hi) ∧
        (v < lo → clampi v lo hi = lo) ∧
        clampi (clampi v lo hi) lo hi = clampi v lo hi) ∧
    (∀ v lo hi : ℕ, lo ≤ hi →
      lo ≤ clampui v lo hi ∧ clampui v lo hi ≤ hi ∧
        (lo ≤ v → v ≤ hi → clampui v lo hi = v) ∧
        (hi < v → clampui v lo hi = hi) ∧
        (v < lo → clampui v lo hi = lo) ∧
        clampui (clampui v lo hi) lo hi = clampui v lo hi) ∧
    (∀ v lo hi : CFloat, v ≠ CFloat.nan → lo ≤ hi →
      lo ≤ clampf v lo hi ∧ clampf v lo hi ≤ hi ∧
        (lo ≤ v → v ≤ hi → clampf v lo hi = v) ∧
        (hi < v → clampf v lo hi = hi) ∧
        (v < lo → clampf v lo hi = lo) ∧
        clampf (clampf v lo hi) lo hi = clampf v lo hi) ∧
    (∀ v lo hi : CFloat, v ≠ CFloat.nan → lo ≤ hi →
      lo ≤ clampd v lo hi ∧ clampd v lo hi ≤ hi ∧
        (lo ≤ v → v ≤ hi → clampd v lo hi = v) ∧
        (hi < v → clampd v lo hi = hi) ∧
        (v < lo → clampd v lo hi = lo) ∧
        clampd (clampd v lo hi) lo hi = clampd v lo hi) := by
  refine ⟨?_, ?_, ?_, ?_⟩
  · intro v lo hi h
    exact clamp_linear v lo hi h
  · intro v lo hi h
    exact clamp_linear v lo hi h
  · intro v lo hi hv h
    exact clamp_CFloat_number v lo hi hv h
  · intro v lo hi hv h
    exact clamp_CFloat_number v lo hi hv h

/-- Witness for C18 (amended): `clampi(5, 0, 3)`, `clampui(1, 2, 4)`,
`clampf(17/10, 0, 1)` and `clampd` at negative infinity. -/
theorem clamp_spec_witness :
    clampi 5 0 3 = 3 ∧ clampui 1 2 4 = 2 ∧
      clampf (CFloat.fin (17 / 10)) 0 1 = 1 ∧ clampd CFloat.neg_inf 0 1 = 0 := by
  have h01 : (0 : CFloat) ≤ 1 := by
    rw [CFloat.zero_eq, CFloat.one_eq, CFloat.fin_le_fin]
    exact zero_le_one
  refine ⟨?_, ?_, ?_, ?_⟩
  · exact (clamp_spec.1 5 0 3 (by decide)).2.2.2.1 (by decide)
  · exact (clamp_spec.2.1 1 2 4 (by decide)).2.2.2.2.1 (by decide)
  · refine (clamp_spec.2.2.1 (CFloat.fin (17 / 10)) 0 1 (by simp) h01).2.2.2.1 ?_
    rw [CFloat.one_eq, CFloat.fin_lt_fin]
    norm_num
  · refine (clamp_spec.2.2.2 CFloat.neg_inf 0 1 (by simp) h01).2.2.2.2.1 ?_
    rw [CFloat.zero_eq]
    simp [CFloat.lt_def, CFloat.ltb]

end Helpers

namespace Helpers

/-! ## RGB to HSV and back -/

/-- The conversion to `long` of a value in `[n, n+1)` with `n` not negative. -/
theorem truncate_eq (x : ℚ) (n : ℤ) (hn : 0 ≤ n) (hlo : (n : ℚ) ≤ x) (hhi : x < (n : ℚ) + 1) :
    truncate x = n := by
  have hx : (0 : ℚ) ≤ x := le_trans (by exact_mod_cast hn) hlo
  unfold truncate
  rw [if_pos hx]
  exact Int.floor_eq_iff.mpr ⟨hlo, hhi⟩

/-- The switch of `hsv2rgb` on a hue `60 * (n + f)` in sector `n`, `0 ≤ n ≤ 5`,
with fractional part `f`. -/
theorem hsv2rgb_sector (s v f : ℚ) (n : ℤ) (hs : 0 < s) (hn0 : 0 ≤ n) (hn5 : n ≤ 5)
    (hf0 : 0 ≤ f) (hf1 : f < 1) :
    hsv2rgb ⟨some (((n : ℚ) + f) * 60), s, v⟩ =
      if n = 0 then some ⟨v, v * (1 - s * (1 - f)), v * (1 - s)⟩
      else if n = 1 then some ⟨v * (1 - s * f), v, v * (1 - s)⟩
      else if n = 2 then some ⟨v * (1 - s), v, v * (1 - s * (1 - f))⟩
      else if n = 3 then some ⟨v * (1 - s), v * (1 - s * f), v⟩
      else if n = 4 then some ⟨v * (1 - s * (1 - f)), v * (1 - s), v⟩
      else some ⟨v, v * (1 - s), v * (1 - s * f)⟩ := by
  have hn5q : (n : ℚ) ≤ 5 := by exact_mod_cast hn5
  have h360 : ¬ (((n : ℚ) + f) * 60 ≥ 360) := by
    rw [not_le]; nlinarith
  have hdiv : ((n : ℚ) + f) * 60 / 60 = (n : ℚ) + f := by field_simp
  have htr : truncate ((n : ℚ) + f) = n :=
    truncate_eq _ n hn0 (by linarith) (by linarith)
  have hff : (n : ℚ) + f - (n : ℚ) = f := by ring
  simp only [hsv2rgb, not_le.mpr hs, if_false, h360, hdiv, htr, hff]

end Helpers

namespace Helpers

/-- The conditional maximum of `rgb2hsv` (lines 67-68). -/
theorem ite_gt_eq_max (a b : ℚ) : (if a > b then a else b) = max a b := by
  by_cases h : a > b
  · rw [if_pos h, max_eq_left h.le]
  · rw [if_neg h, max_eq_right (not_lt.mp h)]

/-- The conditional minimum of `rgb2hsv` (lines 64-65). -/
theorem ite_lt_eq_min (a b : ℚ) : (if a < b then a else b) = min a b := by
  by_cases h : a < b
  · rw [if_pos h, min_eq_left h.le]
  · rw [if_neg h, min_eq_right (not_lt.mp h)]

/-- The result of `rgb2hsv` on a colour with largest component `M > 0` and
smallest component `m < M`. -/
theorem rgb2hsv_nongrey (c : rgb) (M m : ℚ) (hM : max (max c.r c.g) c.b = M)
    (hm : min (min c.r c.g) c.b = m) (hpos : 0 < M) (hgrey : m < M) :
    rgb2hsv c =
      ⟨some (if (if c.r ≥ M then (c.g - c.b) / (M - m)
                else if c.g ≥ M then 2 + (c.b - c.r) / (M - m)
                else 4 + (c.r - c.g) / (M - m)) * 60 < 0
             then (if c.r ≥ M then (c.g - c.b) / (M - m)
                else if c.g ≥ M then 2 + (c.b - c.r) / (M - m)
                else 4 + (c.r - c.g) / (M - m)) * 60 + 360
             else (if c.r ≥ M then (c.g - c.b) / (M - m)
                else if c.g ≥ M then 2 + (c.b - c.r) / (M - m)
                else 4 + (c.r - c.g) / (M - m)) * 60),
       (M - m) / M, M⟩ := by
  have hd : ¬ (M - m = 0) := by
    intro h0; linarith
  simp only [rgb2hsv, ite_gt_eq_max, ite_lt_eq_min, gt_iff_lt, hM, hm, if_pos hpos, if_neg hd]

/-- A colour in sector `n` with fractional part `f`: its hue is in [0, 360)
and `hsv2rgb` returns the colour the switch builds for that sector. -/
theorem roundtrip_sector (h s v f : ℚ) (n : ℤ) (out : rgb) (hs : 0 < s) (hn0 : 0 ≤ n)
    (hn5 : n ≤ 5) (hf0 : 0 ≤ f) (hf1 : f < 1) (hh : h = ((n : ℚ) + f) * 60)
    (hout : (if n = 0 then some (⟨v, v * (1 - s * (1 - f)), v * (1 - s)⟩ : rgb)
      else if n = 1 then some ⟨v * (1 - s * f), v, v * (1 - s)⟩
      else if n = 2 then some ⟨v * (1 - s), v, v * (1 - s * (1 - f))⟩
      else if n = 3 then some ⟨v * (1 - s), v * (1 - s * f), v⟩
      else if n = 4 then some ⟨v * (1 - s * (1 - f)), v * (1 - s), v⟩
      else some ⟨v, v * (1 - s), v * (1 - s * f)⟩) = some out) :
    hsv2rgb ⟨some h, s, v⟩ = some out ∧ 0 ≤ h ∧ h < 360 := by
  have hn0q : (0 : ℚ) ≤ (n : ℚ) := by exact_mod_cast hn0
  have hn5q : (n : ℚ) ≤ 5 := by exact_mod_cast hn5
  refine ⟨?_, ?_, ?_⟩
  · rw [hh, hsv2rgb_sector s v f n hs hn0 hn5 hf0 hf1]
    exact hout
  · rw [hh]; nlinarith
  · rw [hh]; nlinarith

/-- The round trip for components `r`, `g`, `b` with largest component `M`
and smallest component `m`. -/
theorem roundtrip_aux (r g b M m : ℚ) (hpos : 0 < M) (hgrey : m < M)
    (hMr : r ≤ M) (hMg : g ≤ M) (hMb : b ≤ M) (hmr : m ≤ r) (hmg : m ≤ g) (hmb : m ≤ b)
    (hMmem : M = r ∨ M = g ∨ M = b) (hmmem : m = r ∨ m = g ∨ m = b) :
    hsv2rgb
      ⟨some (if (if r ≥ M then (g - b) / (M - m)
                else if g ≥ M then 2 + (b - r) / (M - m)
                else 4 + (r - g) / (M - m)) * 60 < 0
             then (if r ≥ M then (g - b) / (M - m)
                else if g ≥ M then 2 + (b - r) / (M - m)
                else 4 + (r - g) / (M - m)) * 60 + 360
             else (if r ≥ M then (g - b) / (M - m)
                else if g ≥ M then 2 + (b - r) / (M - m)
                else 4 + (r - g) / (M - m)) * 60),
       (M - m) / M, M⟩ = some ⟨r, g, b⟩ ∧
    0 ≤ (if (if r ≥ M then (g - b) / (M - m)
                else if g ≥ M then 2 + (b - r) / (M - m)
                else 4 + (r - g) / (M - m)) * 60 < 0
             then (if r ≥ M then (g - b) / (M - m)
                else if g ≥ M then 2 + (b - r) / (M - m)
                else 4 + (r - g) / (M - m)) * 60 + 360
             else (if r ≥ M then (g - b) / (M - m)
                else if g ≥ M then 2 + (b - r) / (M - m)
                else 4 + (r - g) / (M - m)) * 60) ∧
    (if (if r ≥ M then (g - b) / (M - m)
                else if g ≥ M then 2 + (b - r) / (M - m)
                else 4 + (r - g) / (M - m)) * 60 < 0
             then (if r ≥ M then (g - b) / (M - m)
                else if g ≥ M then 2 + (b - r) / (M - m)
                else 4 + (r - g) / (M - m)) * 60 + 360
             else (if r ≥ M then (g - b) / (M - m)
                else if g ≥ M then 2 + (b - r) / (M - m)
                else 4 + (r - g) / (M - m)) * 60) < 360 := by
  have hd : 0 < M - m := by linarith
  have hdne : M - m ≠ 0 := ne_of_gt hd
  have hMne : M ≠ 0 := ne_of_gt hpos
  have hs : 0 < (M - m) / M := div_pos hd hpos
  by_cases hr : r ≥ M
  · have hrM : r = M := le_antisymm hMr hr
    by_cases hgb : b ≤ g
    · have hbm : b = m := by
        rcases hmmem with h | h | h
        · linarith
        · linarith
        · exact h.symm
      have hx0 : 0 ≤ (g - b) / (M - m) := div_nonneg (by linarith) hd.le
      have hneg : ¬ ((g - b) / (M - m) * 60 < 0) := by
        rw [not_lt]; positivity
      simp only [if_pos hr, if_neg hneg]
      by_cases hgM : g < M
      · have hx1 : (g - b) / (M - m) < 1 := by
          rw [div_lt_one hd]; linarith
        apply roundtrip_sector _ _ _ ((g - b) / (M - m)) 0 _ hs (le_refl 0) (by norm_num) hx0 hx1
        · push_cast; ring
        · simp only [if_true]
          congr 1
          rw [rgb.mk.injEq]
          refine ⟨hrM.symm, ?_, ?_⟩
          · subst_vars; field_simp; ring
          · subst_vars; field_simp
      · have hgM2 : g = M := le_antisymm hMg (not_lt.mp hgM)
        apply roundtrip_sector _ _ _ 0 1 _ hs (by norm_num) (by norm_num) (le_refl 0)
          (by norm_num)
        · have : (g - b) / (M - m) = 1 := by
            rw [hgM2, hbm]; exact div_self hdne
          rw [this]; push_cast; ring
        · simp only [one_ne_zero, if_false, if_true]
          congr 1
          rw [rgb.mk.injEq]
          refine ⟨?_, hgM2.symm, ?_⟩
          · rw [hrM]; ring
          · subst_vars; field_simp
    · have hgb2 : g < b := not_le.mp hgb
      have hgm : g = m := by
        rcases hmmem with h | h | h
        · linarith
        · exact h.symm
        · linarith
      have hx0 : (g - b) / (M - m) < 0 := div_neg_of_neg_of_pos (by linarith) hd
      have hxm1 : -1 ≤ (g - b) / (M - m) := by
        rw [le_div_iff₀ hd]; linarith
      have hneg : (g - b) / (M - m) * 60 < 0 := by linarith
      simp only [if_pos hr, if_pos hneg]
      apply roundtrip_sector _ _ _ (1 + (g - b) / (M - m)) 5 _ hs (by norm_num) (le_refl 5)
        (by linarith) (by linarith)
      · push_cast; ring
      · have h50 : ¬ ((5 : ℤ) = 0) := by decide
        have h51 : ¬ ((5 : ℤ) = 1) := by decide
        have h52 : ¬ ((5 : ℤ) = 2) := by decide
        have h53 : ¬ ((5 : ℤ) = 3) := by decide
        have h54 : ¬ ((5 : ℤ) = 4) := by decide
        simp only [h50, h51, h52, h53, h54, if_false]
        congr 1
        rw [rgb.mk.injEq]
        refine ⟨hrM.symm, ?_, ?_⟩
        · subst_vars; field_simp
        · subst_vars; field_simp; ring
  · have hrM : r < M := not_le.mp hr
    by_cases hg : g ≥ M
    · have hgM : g = M := le_antisymm hMg hg
      by_cases hbr : r ≤ b
      · have hrm : r = m := by
          rcases hmmem with h | h | h
          · exact h.symm
          · linarith
          · linarith
        have hx0 : 0 ≤ (b - r) / (M - m) := div_nonneg (by linarith) hd.le
        have hneg : ¬ ((2 + (b - r) / (M - m)) * 60 < 0) := by
          rw [not_lt]; positivity
        simp only [if_neg hr, if_pos hg, if_neg hneg]
        by_cases hbM : b < M
        · have hx1 : (b - r) / (M - m) < 1 := by
            rw [div_lt_one hd]; linarith
          apply roundtrip_sector _ _ _ ((b - r) / (M - m)) 2 _ hs (by norm_num) (by norm_num)
            hx0 hx1
          · push_cast; ring
          · have h20 : ¬ ((2 : ℤ) = 0) := by decide
            have h21 : ¬ ((2 : ℤ) = 1) := by decide
            simp only [h20, h21, if_false, if_true]
            congr 1
            rw [rgb.mk.injEq]
            refine ⟨?_, hgM.symm, ?_⟩
            · subst_vars; field_simp
            · subst_vars; field_simp; ring
        · have hbM2 : b = M := le_antisymm hMb (not_lt.mp hbM)
          apply roundtrip_sector _ _ _ 0 3 _ hs (by norm_num) (by norm_num) (le_refl 0)
            (by norm_num)
          · have : (b - r) / (M - m) = 1 := by
              rw [hbM2, hrm]; exact div_self hdne
            rw [this]; push_cast; ring
          · have h30 : ¬ ((3 : ℤ) = 0) := by decide
            have h31 : ¬ ((3 : ℤ) = 1) := by decide
            have h32 : ¬ ((3 : ℤ) = 2) := by decide
            simp only [h30, h31, h32, if_false, if_true]
            congr 1
            rw [rgb.mk.injEq]
            refine ⟨?_, ?_, hbM2.symm⟩
            · subst_vars; field_simp
            · rw [hgM]; ring
      · have hbr2 : b < r := not_le.mp hbr
        have hbm : b = m := by
          rcases hmmem with h | h | h
          · linarith
          · linarith
          · exact h.symm
        have hx0 : (b - r) / (M - m) < 0 := div_neg_of_neg_of_pos (by linarith) hd
        have hxm1 : -1 < (b - r) / (M - m) := by
          rw [lt_div_iff₀ hd]; linarith
        have hneg : ¬ ((2 + (b - r) / (M - m)) * 60 < 0) := by
          rw [not_lt]; linarith
        simp only [if_neg hr, if_pos hg, if_neg hneg]
        apply roundtrip_sector _ _ _ (1 + (b - r) / (M - m)) 1 _ hs (by norm_num) (by norm_num)
          (by linarith) (by linarith)
        · push_cast; ring
        · simp only [one_ne_zero, if_false, if_true]
          congr 1
          rw [rgb.mk.injEq]
          refine ⟨?_, hgM.symm, ?_⟩
          · subst_vars; field_simp; ring
          · subst_vars; field_simp
    · have hgM : g < M := not_le.mp hg
      have hbM : b = M := by
        rcases hMmem with h | h | h
        · linarith
        · linarith
        · exact h.symm
      by_cases hrg : g ≤ r
      · have hgm : g = m := by
          rcases hmmem with h | h | h
          · linarith
          · exact h.symm
          · linarith
        have hx0 : 0 ≤ (r - g) / (M - m) := div_nonneg (by linarith) hd.le
        have hx1 : (r - g) / (M - m) < 1 := by
          rw [div_lt_one hd]; linarith
        have hneg : ¬ ((4 + (r - g) / (M - m)) * 60 < 0) := by
          rw [not_lt]; positivity
        simp only [if_neg hr, if_neg hg, if_neg hneg]
        apply roundtrip_sector _ _ _ ((r - g) / (M - m)) 4 _ hs (by norm_num) (by norm_num)
          hx0 hx1
        · push_cast; ring
        · have h40 : ¬ ((4 : ℤ) = 0) := by decide
          have h41 : ¬ ((4 : ℤ) = 1) := by decide
          have h42 : ¬ ((4 : ℤ) = 2) := by decide
          have h43 : ¬ ((4 : ℤ) = 3) := by decide
          simp only [h40, h41, h42, h43, if_false, if_true]
          congr 1
          rw [rgb.mk.injEq]
          refine ⟨?_, ?_, hbM.symm⟩
          · subst_vars; field_simp; ring
          · subst_vars; field_simp
      · have hrg2 : r < g := not_le.mp hrg
        have hrm : r = m := by
          rcases hmmem with h | h | h
          · exact h.symm
          · linarith
          · linarith
        have hx0 : (r - g) / (M - m) < 0 := div_neg_of_neg_of_pos (by linarith) hd
        have hxm1 : -1 < (r - g) / (M - m) := by
          rw [lt_div_iff₀ hd]; linarith
        have hneg : ¬ ((4 + (r - g) / (M - m)) * 60 < 0) := by
          rw [not_lt]; linarith
        simp only [if_neg hr, if_neg hg, if_neg hneg]
        apply roundtrip_sector _ _ _ (1 + (r - g) / (M - m)) 3 _ hs (by norm_num) (by norm_num)
          (by linarith) (by linarith)
        · push_cast; ring
        · have h30 : ¬ ((3 : ℤ) = 0) := by decide
          have h31 : ¬ ((3 : ℤ) = 1) := by decide
          have h32 : ¬ ((3 : ℤ) = 2) := by decide
          simp only [h30, h31, h32, if_false, if_true]
          congr 1
          rw [rgb.mk.injEq]
          refine ⟨?_, ?_, hbM.symm⟩
          · subst_vars; field_simp
          · subst_vars; field_simp; ring

end Helpers

namespace Helpers

/-- Interpolating between a number and itself gives the number. -/
theorem lerp_self (a k : ℚ) : lerp a a k = a := by
  unfold lerp; ring

/-- C19: in exact arithmetic, for every colour whose largest component is
positive and strictly greater than its smallest component, `hsv2rgb` of
`rgb2hsv` returns the colour, the intermediate hue lies in [0, 360), and
`rgb_interp` of the colour with itself returns the colour for every `k`. -/
theorem rgb_hsv_roundtrip (c : rgb) (k : ℚ) (hpos : 0 < max (max c.r c.g) c.b)
    (hgrey : min (min c.r c.g) c.b < max (max c.r c.g) c.b) :
    hsv2rgb (rgb2hsv c) = some c ∧
      (∃ h : ℚ, (rgb2hsv c).h = some h ∧ 0 ≤ h ∧ h < 360) ∧
      rgb_interp c c k = some c := by
  have hMmem : max (max c.r c.g) c.b = c.r ∨ max (max c.r c.g) c.b = c.g ∨
      max (max c.r c.g) c.b = c.b := by
    rcases max_choice (max c.r c.g) c.b with h | h
    · rcases max_choice c.r c.g with h2 | h2
      · left; rw [h, h2]
      · right; left; rw [h, h2]
    · right; right; exact h
  have hmmem : min (min c.r c.g) c.b = c.r ∨ min (min c.r c.g) c.b = c.g ∨
      min (min c.r c.g) c.b = c.b := by
    rcases min_choice (min c.r c.g) c.b with h | h
    · rcases min_choice c.r c.g with h2 | h2
      · left; rw [h, h2]
      · right; left; rw [h, h2]
    · right; right; exact h
  have haux := roundtrip_aux c.r c.g c.b (max (max c.r c.g) c.b) (min (min c.r c.g) c.b)
    hpos hgrey (le_trans (le_max_left _ _) (le_max_left _ _))
    (le_trans (le_max_right _ _) (le_max_left _ _)) (le_max_right _ _)
    (le_trans (min_le_left _ _) (min_le_left _ _))
    (le_trans (min_le_left _ _) (min_le_right _ _)) (min_le_right _ _) hMmem hmmem
  have heq := rgb2hsv_nongrey c _ _ rfl rfl hpos hgrey
  have hround : hsv2rgb (rgb2hsv c) = some c := by
    rw [heq]; exact haux.1
  refine ⟨hround, ⟨_, by rw [heq], haux.2.1, haux.2.2⟩, ?_⟩
  have hinterp : rgb_interp c c k = hsv2rgb (rgb2hsv c) := by
    unfold rgb_interp
    simp only [lerp_self]
    rw [heq]
    simp only [lerp_nan, lerp_self]
  rw [hinterp, hround]

/-- Witness for C19: the orange (1, 1/2, 0) and `k` = 1/3. -/
theorem rgb_hsv_roundtrip_witness :
    (0 < max (max (⟨1, 1 / 2, 0⟩ : rgb).r (⟨1, 1 / 2, 0⟩ : rgb).g) (⟨1, 1 / 2, 0⟩ : rgb).b) ∧
      (min (min (⟨1, 1 / 2, 0⟩ : rgb).r (⟨1, 1 / 2, 0⟩ : rgb).g) (⟨1, 1 / 2, 0⟩ : rgb).b
        < max (max (⟨1, 1 / 2, 0⟩ : rgb).r (⟨1, 1 / 2, 0⟩ : rgb).g) (⟨1, 1 / 2, 0⟩ : rgb).b) ∧
      (hsv2rgb (rgb2hsv ⟨1, 1 / 2, 0⟩) = some ⟨1, 1 / 2, 0⟩ ∧
        (∃ h : ℚ, (rgb2hsv ⟨1, 1 / 2, 0⟩).h = some h ∧ 0 ≤ h ∧ h < 360) ∧
        rgb_interp ⟨1, 1 / 2, 0⟩ ⟨1, 1 / 2, 0⟩ (1 / 3) = some ⟨1, 1 / 2, 0⟩) :=
  have hpos : 0 < max (max (⟨1, 1 / 2, 0⟩ : rgb).r (⟨1, 1 / 2, 0⟩ : rgb).g)
      (⟨1, 1 / 2, 0⟩ : rgb).b :=
    lt_max_of_lt_left (lt_max_of_lt_left (by norm_num))
  have hgrey : min (min (⟨1, 1 / 2, 0⟩ : rgb).r (⟨1, 1 / 2, 0⟩ : rgb).g)
      (⟨1, 1 / 2, 0⟩ : rgb).b
        < max (max (⟨1, 1 / 2, 0⟩ : rgb).r (⟨1, 1 / 2, 0⟩ : rgb).g) (⟨1, 1 / 2, 0⟩ : rgb).b :=
    lt_of_le_of_lt (min_le_right _ _) hpos
  ⟨hpos, hgrey, rgb_hsv_roundtrip ⟨1, 1 / 2, 0⟩ (1 / 3) hpos hgrey⟩

end Helpers
